import Mathlib

/-!
# Pharmaventory — shallow embedding and verification

Shallow embedding of the stock-affecting core of the pharmaceutical
inventory application: the prescription workflow
(`src/backend/src/controllers/prescriptionController.ts`), the reorder
service (`reorderService.ts`), the medicine schema virtuals
(`src/backend/src/models/Medicine.ts`) and the demand-trend analytics
(`analyticsController.ts`).

Conventions of the embedding:
* Mongo ObjectIds become `Nat` identifiers; timestamps become `Int`
  (milliseconds since epoch, as in JavaScript `Date.getTime()`).
* Numeric document fields (`quantity`, `reorderThreshold`, …) become `Int`;
  the exact rational arithmetic of the analytics module becomes `ℚ`.
* A Mongo collection becomes a `List` of documents; `findById` becomes
  `List.find?` on the id field and `findByIdAndUpdate` becomes a `List.map`
  that rewrites the matching document(s).
* `async` functions that can `throw` become functions into `Except`;
  a thrown error carries the message string.  Where partially applied
  writes matter (the dispense loop), the error also carries the state
  reached at the point of the throw, since the code performs no rollback.
-/

/-- Status of a prescription
(`src/backend/src/models/Prescription.ts`, `PrescriptionStatus`). -/
inductive PrescriptionStatus
  | pending
  | validated
  | dispensed
  | rejected
  | expired
  deriving DecidableEq

/-- The string stored for each `PrescriptionStatus` enum member. -/
def PrescriptionStatus.str : PrescriptionStatus → String
  | .pending => "pending"
  | .validated => "validated"
  | .dispensed => "dispensed"
  | .rejected => "rejected"
  | .expired => "expired"

/-- Transaction type.  Modelled from the spec: the `Transaction` model file
(`src/backend/src/models/Transaction.ts`) is not part of the provided
sources, only its callers are; §3 of the spec lists the types
purchase/sale/dispense/adjustment/expired/return.  (`ret` stands for the
JS enum member `return`, a Lean keyword.) -/
inductive TransactionType
  | purchase
  | sale
  | dispense
  | adjustment
  | expired
  | ret
  deriving DecidableEq

/-- Status of a reorder request (`ReorderRequest.ts`, `ReorderStatus`;
file `src/unnamed/part_007`). -/
inductive ReorderStatus
  | pending
  | approved
  | ordered
  | received
  | cancelled
  deriving DecidableEq

/-- A medicine document (`src/backend/src/models/Medicine.ts`), restricted
to the stored fields the verified workflows read or write. -/
structure Medicine where
  id : Nat
  name : String
  quantity : Int
  pricePerUnit : Int
  reorderThreshold : Int
  expiryDate : Int
  isActive : Bool
  deriving DecidableEq

/-- One item of a prescription (`IPrescriptionItem` in `Prescription.ts`). -/
structure PrescriptionItem where
  medicineId : Nat
  medicineName : String
  quantity : Int
  deriving DecidableEq

/-- A prescription document (`Prescription.ts`), restricted to the fields
the validation/dispensing workflow reads or writes. -/
structure Prescription where
  id : Nat
  prescriptionNumber : String
  items : List PrescriptionItem
  status : PrescriptionStatus
  validatedBy : Option Nat
  validatedAt : Option Int
  dispensedBy : Option Nat
  dispensedAt : Option Int
  rejectionReason : Option String
  notes : Option String
  deriving DecidableEq

/-- A transaction document.  Modelled from the spec (§3) and from the
fields its creator `dispensePrescription` passes to `Transaction.create`:
medicine reference and name snapshot, type, quantity, previous/new stock,
unit price, total amount, actor, optional prescription reference,
creation timestamp. -/
structure Transaction where
  medicineId : Nat
  medicineName : String
  ttype : TransactionType
  quantity : Int
  previousStock : Int
  newStock : Int
  unitPrice : Int
  totalAmount : Int
  performedBy : Nat
  prescriptionId : Option Nat
  notes : String
  createdAt : Int
  deriving DecidableEq

/-- The slice of the database the prescription workflow touches. -/
structure DispState where
  medicines : List Medicine
  prescriptions : List Prescription
  transactions : List Transaction
  deriving DecidableEq

/-- `Medicine.findById` over the medicines collection. -/
def findMedicine (meds : List Medicine) (mid : Nat) : Option Medicine :=
  meds.find? (fun m => m.id == mid)

/-- `Prescription.findById` over the prescriptions collection. -/
def findPrescription (ps : List Prescription) (pid : Nat) : Option Prescription :=
  ps.find? (fun q => q.id == pid)

/-- `Medicine.findByIdAndUpdate(mid, {quantity: q})`. -/
def setMedicineQuantity (meds : List Medicine) (mid : Nat) (q : Int) : List Medicine :=
  meds.map (fun m => if m.id == mid then { m with quantity := q } else m)

/-- The `Transaction.create({...})` document of the dispense loop
(`prescriptionController.ts:389-401`): `previousStock` is the stock read
just before the write and `newStock = previousStock - item.quantity`. -/
def dispenseTxn (user : Nat) (now : Int) (p : Prescription) (item : PrescriptionItem)
    (medicine : Medicine) : Transaction :=
  { medicineId := medicine.id
    medicineName := medicine.name
    ttype := .dispense
    quantity := item.quantity
    previousStock := medicine.quantity
    newStock := medicine.quantity - item.quantity
    unitPrice := medicine.pricePerUnit
    totalAmount := item.quantity * medicine.pricePerUnit
    performedBy := user
    prescriptionId := some p.id
    notes := "Dispensed via prescription " ++ p.prescriptionNumber
    createdAt := now }

/-- The body of the `for (const item of prescription.items)` loop of
`dispensePrescription` (`prescriptionController.ts:366-404`): for each item,
re-find the medicine, throw if missing, re-check stock and throw if
insufficient, otherwise write the decremented stock and append a dispense
transaction.  A throw aborts the remaining items but keeps the writes
already performed (the code has no rollback), so the error carries the
state at the point of the throw. -/
def dispenseItems (user : Nat) (now : Int) (p : Prescription) :
    List PrescriptionItem → DispState →
    Except (String × DispState) (DispState × List Transaction)
  | [], s => .ok (s, [])
  | item :: rest, s =>
    match findMedicine s.medicines item.medicineId with
    | none => .error ("Medicine " ++ item.medicineName ++ " not found", s)
    | some medicine =>
      if medicine.quantity < item.quantity then
        .error ("Insufficient stock for " ++ item.medicineName ++ ". Available: "
          ++ toString medicine.quantity ++ ", Required: " ++ toString item.quantity, s)
      else
        match dispenseItems user now p rest
          { s with
            medicines := setMedicineQuantity s.medicines item.medicineId
              (medicine.quantity - item.quantity)
            transactions := s.transactions ++ [dispenseTxn user now p item medicine] } with
        | .ok (s3, txns) => .ok (s3, dispenseTxn user now p item medicine :: txns)
        | .error e => .error e

/-- Result of an HTTP-facing controller call: the JSON envelope's `success`
flag and `message`, plus the database state after the call. -/
structure DispResult where
  success : Bool
  message : String
  state : DispState
  deriving DecidableEq

/-- `dispensePrescription` (`prescriptionController.ts:332-439`). -/
def dispensePrescription (user : Nat) (now : Int) (pid : Nat) (s : DispState) : DispResult :=
  match findPrescription s.prescriptions pid with
  | none => ⟨false, "Prescription not found", s⟩
  | some p =>
    if p.status ≠ PrescriptionStatus.validated then
      ⟨false, "Prescription must be validated before dispensing. Current status: "
        ++ p.status.str, s⟩
    else
      match dispenseItems user now p p.items s with
      | .error (msg, sErr) => ⟨false, msg, sErr⟩
      | .ok (s2, _) =>
        ⟨true, "Prescription dispensed successfully",
          { s2 with
            prescriptions := s2.prescriptions.map (fun q =>
              if q.id == pid then
                { q with
                  status := .dispensed
                  dispensedBy := some user
                  dispensedAt := some now }
              else q) }⟩

/-- `Array.prototype.join(sep)` as used for `validationErrors.join('; ')`. -/
def joinSep (sep : String) : List String → String
  | [] => ""
  | [a] => a
  | a :: rest => a ++ sep ++ joinSep sep rest

/-- One pass of the validation loop of `validatePrescription`
(`prescriptionController.ts:232-270`) over a single item: the error message
pushed for this item, or `none` when the item passes every check (the
expiring-soon case only logs a warning and blocks nothing). -/
def itemValidationError (now : Int) (meds : List Medicine) (item : PrescriptionItem) :
    Option String :=
  match findMedicine meds item.medicineId with
  | none => some ("Medicine " ++ item.medicineName ++ " not found")
  | some medicine =>
    if !medicine.isActive then
      some ("Medicine " ++ item.medicineName ++ " is not available")
    else if medicine.quantity < item.quantity then
      some ("Insufficient stock for " ++ item.medicineName ++ ". Available: "
        ++ toString medicine.quantity ++ ", Required: " ++ toString item.quantity)
    else if medicine.expiryDate < now then
      some ("Medicine " ++ item.medicineName ++ " has expired")
    else none

/-- The `validationErrors` array accumulated by the loop, in item order. -/
def validationErrors (now : Int) (meds : List Medicine) (items : List PrescriptionItem) :
    List String :=
  items.filterMap (itemValidationError now meds)

/-- Result of `validatePrescription`: envelope plus resulting state. -/
structure ValidateResult where
  success : Bool
  message : String
  errors : List String
  state : DispState
  deriving DecidableEq

/-- `validatePrescription` (`prescriptionController.ts:196-324`).
`reqNotes` is `req.body.notes`; JS `notes || prescription.notes` treats the
empty string as absent. -/
def validatePrescription (user : Nat) (now : Int) (reqNotes : Option String)
    (pid : Nat) (s : DispState) : ValidateResult :=
  match findPrescription s.prescriptions pid with
  | none => ⟨false, "Prescription not found", [], s⟩
  | some p =>
    if p.status ≠ PrescriptionStatus.pending then
      ⟨false, "Prescription is already " ++ p.status.str, [], s⟩
    else
      let errs := validationErrors now s.medicines p.items
      if errs ≠ [] then
        ⟨false, "Prescription validation failed", errs,
          { s with
            prescriptions := s.prescriptions.map (fun q =>
              if q.id == pid then
                { q with
                  status := .rejected
                  rejectionReason := some (joinSep "; " errs)
                  validatedBy := some user
                  validatedAt := some now }
              else q) }⟩
      else
        ⟨true, "Prescription validated successfully", [],
          { s with
            prescriptions := s.prescriptions.map (fun q =>
              if q.id == pid then
                { q with
                  status := .validated
                  validatedBy := some user
                  validatedAt := some now
                  notes := match reqNotes with
                    | some n => if n == "" then p.notes else some n
                    | none => p.notes }
              else q) }⟩

/-- A reorder request document (`ReorderRequest.ts`, file
`src/unnamed/part_007`), restricted to the fields the reorder service
reads or writes. -/
structure ReorderRequest where
  id : Nat
  medicineId : Nat
  medicineName : String
  currentStock : Int
  reorderThreshold : Int
  requestedQuantity : Int
  status : ReorderStatus
  approvedBy : Option Nat
  approvedAt : Option Int
  orderedAt : Option Int
  receivedAt : Option Int
  deriving DecidableEq

/-- The slice of the database the reorder service touches.  `nextId` models
the generation of fresh document ids on insert: every stored request id is
below it. -/
structure ReorderState where
  medicines : List Medicine
  requests : List ReorderRequest
  nextId : Nat
  deriving DecidableEq

/-- The `status: { $in: [PENDING, APPROVED] }` filter of the sweep
(`reorderService.ts:30-33`): an open request in the sense of the spec. -/
def ReorderStatus.isOpen : ReorderStatus → Bool
  | .pending => true
  | .approved => true
  | _ => false

/-- `ReorderRequest.findOne({medicineId, status: {$in: [pending, approved]}})`. -/
def findOpenRequest (reqs : List ReorderRequest) (mid : Nat) : Option ReorderRequest :=
  reqs.find? (fun r => r.medicineId == mid && r.status.isOpen)

/-- `ReorderRequest.findById` over the requests collection. -/
def findRequest (reqs : List ReorderRequest) (rid : Nat) : Option ReorderRequest :=
  reqs.find? (fun r => r.id == rid)

/-- The document built by `ReorderRequest.create` in the sweep
(`reorderService.ts:49-62`): stock and threshold snapshots, requested
quantity `max(3 × threshold, 50)`, status pending. -/
def newReorderRequest (rid : Nat) (m : Medicine) : ReorderRequest :=
  { id := rid
    medicineId := m.id
    medicineName := m.name
    currentStock := m.quantity
    reorderThreshold := m.reorderThreshold
    requestedQuantity := max (m.reorderThreshold * 3) 50
    status := .pending
    approvedBy := none
    approvedAt := none
    orderedAt := none
    receivedAt := none }

/-- The body of the `for (const medicine of medicines)` loop of
`checkAndCreateReorderRequests` (`reorderService.ts:26-72`): skip medicines
above threshold; refresh the open request's stock snapshot when it drifted;
otherwise create a fresh pending request. -/
def sweepMedicine (s : ReorderState) (m : Medicine) : ReorderState :=
  if m.quantity ≤ m.reorderThreshold then
    match findOpenRequest s.requests m.id with
    | some existingRequest =>
      if existingRequest.currentStock ≠ m.quantity then
        { s with
          requests := s.requests.map (fun r =>
            if r.id == existingRequest.id then { r with currentStock := m.quantity } else r) }
      else s
    | none =>
      { s with
        requests := s.requests ++ [newReorderRequest s.nextId m]
        nextId := s.nextId + 1 }
  else s

/-- `checkAndCreateReorderRequests` (`reorderService.ts:14-85`), the cron
sweep: iterate over all active medicines (one `Medicine.find` snapshot) and
apply the per-medicine check. -/
def checkAndCreateReorderRequests (s : ReorderState) : ReorderState :=
  (s.medicines.filter (fun m => m.isActive)).foldl sweepMedicine s

/-- `approveReorderRequest` (`reorderService.ts:114-142`):
`findByIdAndUpdate` stamping approver and time; a missing request throws a
plain not-found `Error`, rethrown to the caller. -/
def approveReorderRequest (now : Int) (rid uid : Nat) (s : ReorderState) :
    Except String ReorderState :=
  match findRequest s.requests rid with
  | none => .error "Reorder request not found"
  | some _ =>
    .ok { s with
          requests := s.requests.map (fun r =>
            if r.id == rid then
              { r with status := .approved, approvedBy := some uid, approvedAt := some now }
            else r) }

/-- `markReorderRequestAsOrdered` (`reorderService.ts:148-174`). -/
def markReorderRequestAsOrdered (now : Int) (rid : Nat) (s : ReorderState) :
    Except String ReorderState :=
  match findRequest s.requests rid with
  | none => .error "Reorder request not found"
  | some _ =>
    .ok { s with
          requests := s.requests.map (fun r =>
            if r.id == rid then { r with status := .ordered, orderedAt := some now } else r) }

/-- `markReorderRequestAsReceived` (`reorderService.ts:181-227`).
`quantityToAdd = receivedQuantity || request.requestedQuantity` falls back
to the requested quantity whenever the argument is absent or `0` (JS falsy);
the medicine's stock is incremented only when the linked medicine exists,
and the request's stored `requestedQuantity` is overwritten with the
quantity actually added. -/
def markReorderRequestAsReceived (now : Int) (rid : Nat) (receivedQuantity : Option Int)
    (s : ReorderState) : Except String ReorderState :=
  match findRequest s.requests rid with
  | none => .error "Reorder request not found"
  | some request =>
    let quantityToAdd :=
      match receivedQuantity with
      | some q => if q = 0 then request.requestedQuantity else q
      | none => request.requestedQuantity
    let s1 : ReorderState :=
      match findMedicine s.medicines request.medicineId with
      | some _ =>
        { s with
          medicines := s.medicines.map (fun m =>
            if m.id == request.medicineId then
              { m with quantity := m.quantity + quantityToAdd }
            else m) }
      | none => s
    .ok { s1 with
          requests := s1.requests.map (fun r =>
            if r.id == rid then
              { r with
                status := .received
                receivedAt := some now
                requestedQuantity := quantityToAdd }
            else r) }

/-- Error-propagation skeleton of the sweep: the `try/catch` of
`checkAndCreateReorderRequests` (`reorderService.ts:79-85`) logs a failed
`Medicine.find` and returns normally — the rejection never reaches the
caller, so the function resolves with the untouched state. -/
def checkAndCreateReorderRequestsE (fetched : Except String (List Medicine))
    (s : ReorderState) : Except String ReorderState :=
  match fetched with
  | .error _ => .ok s
  | .ok meds => .ok ((meds.filter (fun m => m.isActive)).foldl sweepMedicine s)

/-- Error-propagation skeleton of `approveReorderRequest`: a database error
from `findByIdAndUpdate` is logged and rethrown; a `null` result throws the
generic not-found `Error`, also logged and rethrown. -/
def approveReorderRequestE (dbResult : Except String (Option ReorderRequest)) :
    Except String Unit :=
  match dbResult with
  | .error e => .error e
  | .ok none => .error "Reorder request not found"
  | .ok (some _) => .ok ()

/-- Error-propagation skeleton of `markReorderRequestAsOrdered`
(`reorderService.ts:148-174`); identical shape to the approve path. -/
def markReorderRequestAsOrderedE (dbResult : Except String (Option ReorderRequest)) :
    Except String Unit :=
  match dbResult with
  | .error e => .error e
  | .ok none => .error "Reorder request not found"
  | .ok (some _) => .ok ()

/-- Error-propagation skeleton of `markReorderRequestAsReceived`
(`reorderService.ts:181-227`): the initial `findById` decides between a
rethrown database error, the generic not-found `Error`, and success. -/
def markReorderRequestAsReceivedE (dbResult : Except String (Option ReorderRequest)) :
    Except String Unit :=
  match dbResult with
  | .error e => .error e
  | .ok none => .error "Reorder request not found"
  | .ok (some _) => .ok ()

/-- `1000 * 60 * 60 * 24`, the millisecond-per-day divisor of the schema
virtuals and the validation loop. -/
def msPerDay : Int := 1000 * 60 * 60 * 24

/-- `Math.ceil(a / b)` on an exact integer ratio (`b > 0`):
the negated floor division of the negation. -/
def ceilDiv (a b : Int) : Int := -((-a) / b)

/-- Virtual `daysUntilExpiry` (`Medicine.ts:148-154`):
`Math.ceil((expiry - today) / 86400000)`. -/
def daysUntilExpiry (now : Int) (m : Medicine) : Int :=
  ceilDiv (m.expiryDate - now) msPerDay

/-- Virtual `isLowStock` (`Medicine.ts:159-161`). -/
def isLowStock (m : Medicine) : Bool :=
  m.quantity ≤ m.reorderThreshold

/-- Virtual `isExpired` (`Medicine.ts:166-169`). -/
def isExpired (now : Int) (m : Medicine) : Bool :=
  m.expiryDate < now

/-- Virtual `isExpiringSoon` (`Medicine.ts:174-180`): recomputes the
ceiling-rounded day difference and tests `0 < diffDays ≤ 30`. -/
def isExpiringSoon (now : Int) (m : Medicine) : Bool :=
  let diffDays := ceilDiv (m.expiryDate - now) msPerDay
  decide (diffDays > 0) && decide (diffDays ≤ 30)

/-- The fields of the `getDemandTrends` response the claims speak about
(`analyticsController.ts`, file `src/unnamed/part_008`). -/
structure DemandTrendsResult where
  totalDemand : Int
  averageDailyDemand : ℚ
  predictedDemand30 : ℚ
  currentStock : Int
  daysUntilStockout : Int
  deriving DecidableEq

/-- The transaction filter of `getDemandTrends`: sale/dispense transactions
of the medicine inside the `[now - days·day, now]` window. -/
def demandRelevant (now : Int) (days : Int) (mid : Nat) (t : Transaction) : Bool :=
  t.medicineId == mid && (t.ttype == .sale || t.ttype == .dispense)
    && decide (now - days * msPerDay ≤ t.createdAt) && decide (t.createdAt ≤ now)

/-- `getDemandTrends` (`src/unnamed/part_008:217-311`): total demand over
the window, `averageDailyDemand = total / days`, 30-day projection, and
`daysUntilStockout = floor(currentStock / averageDailyDemand)` guarded to
`0` unless both current stock and average demand are positive. -/
def getDemandTrends (now : Int) (days : Int) (mid : Nat)
    (txns : List Transaction) (meds : List Medicine) : DemandTrendsResult :=
  let totalDemand : Int := ((txns.filter (demandRelevant now days mid)).map
    (fun t => t.quantity)).sum
  let averageDailyDemand : ℚ := (totalDemand : ℚ) / (days : ℚ)
  let predictedDemand : ℚ := averageDailyDemand * 30
  let currentStock : Int := ((findMedicine meds mid).map (fun m => m.quantity)).getD 0
  let daysUntilStockout : Int :=
    if 0 < currentStock ∧ 0 < averageDailyDemand then
      ⌊(currentStock : ℚ) / averageDailyDemand⌋
    else 0
  { totalDemand := totalDemand
    averageDailyDemand := averageDailyDemand
    predictedDemand30 := predictedDemand
    currentStock := currentStock
    daysUntilStockout := daysUntilStockout }

/-! ## Claim-level predicates over the embedded state -/

/-- The claim's failure condition for one prescription item: the referenced
medicine is missing or inactive, more than the available stock is
requested, or the medicine is expired (the conditions the validation loop
checks). -/
def itemFails (now : Int) (meds : List Medicine) (item : PrescriptionItem) : Prop :=
  match findMedicine meds item.medicineId with
  | none => True
  | some medicine =>
    medicine.isActive = false ∨ medicine.quantity < item.quantity ∨
      medicine.expiryDate < now

/-- Total quantity a prescription's item list prescribes of one medicine. -/
def totalPrescribed (items : List PrescriptionItem) (mid : Nat) : Int :=
  ((items.filter (fun it => it.medicineId == mid)).map (fun it => it.quantity)).sum

/-- The reorder requests referencing a medicine. -/
def requestsFor (reqs : List ReorderRequest) (mid : Nat) : List ReorderRequest :=
  reqs.filter (fun r => r.medicineId == mid)

/-- The open (pending or approved) reorder requests referencing a medicine. -/
def openRequestsFor (reqs : List ReorderRequest) (mid : Nat) : List ReorderRequest :=
  reqs.filter (fun r => r.medicineId == mid && r.status.isOpen)

/-- Number of open reorder requests a state holds for a medicine. -/
def openCount (s : ReorderState) (mid : Nat) : Nat :=
  (openRequestsFor s.requests mid).length

/-- State well-formedness delivered by the database layer: document ids are
unique (Mongo `_id`) and below the fresh-id counter of the embedding. -/
def ReorderWF (s : ReorderState) : Prop :=
  (s.medicines.map (fun m => m.id)).Nodup ∧
  (s.requests.map (fun r => r.id)).Nodup ∧
  ∀ r ∈ s.requests, r.id < s.nextId

/-! ## Concrete states used by witnesses and counterexamples -/

/-- A low-stock active medicine: quantity 5, threshold 10 (the spec's
scenario medicine). -/
def mLow : Medicine :=
  { id := 1
    name := "Paracetamol"
    quantity := 5
    pricePerUnit := 2
    reorderThreshold := 10
    expiryDate := 2000000000
    isActive := true }

/-- An open (pending) reorder request for `mLow` with a drifted stock
snapshot. -/
def rOpenA : ReorderRequest :=
  { id := 11
    medicineId := 1
    medicineName := "Paracetamol"
    currentStock := 3
    reorderThreshold := 10
    requestedQuantity := 50
    status := .pending
    approvedBy := none
    approvedAt := none
    orderedAt := none
    receivedAt := none }

/-- A second open (pending) reorder request for the same medicine. -/
def rOpenB : ReorderRequest :=
  { rOpenA with id := 12, currentStock := 5 }

/-- A state that already carries two open requests for medicine 1. -/
def sTwoOpen : ReorderState :=
  { medicines := [mLow], requests := [rOpenA, rOpenB], nextId := 20 }

/-- A state with the low-stock medicine and no requests at all. -/
def sNoOpen : ReorderState :=
  { medicines := [mLow], requests := [], nextId := 1 }

/-- An ordered reorder request for 50 units of medicine 2. -/
def rOrdered : ReorderRequest :=
  { id := 1
    medicineId := 2
    medicineName := "Ibuprofen"
    currentStock := 10
    reorderThreshold := 20
    requestedQuantity := 50
    status := .ordered
    approvedBy := some 4
    approvedAt := some 10
    orderedAt := some 20
    receivedAt := none }

/-- The medicine linked to `rOrdered`, currently holding 10 units. -/
def mStock10 : Medicine :=
  { id := 2
    name := "Ibuprofen"
    quantity := 10
    pricePerUnit := 3
    reorderThreshold := 20
    expiryDate := 2000000000
    isActive := true }

/-- State for the receive-marking scenarios. -/
def sReceive : ReorderState :=
  { medicines := [mStock10], requests := [rOrdered], nextId := 9 }

/-- An empty reorder state. -/
def sEmptyReorder : ReorderState :=
  { medicines := [], requests := [], nextId := 0 }

/-- A medicine with only 2 units in stock. -/
def mShort : Medicine :=
  { id := 3
    name := "Amoxicillin"
    quantity := 2
    pricePerUnit := 4
    reorderThreshold := 1
    expiryDate := 2000000000
    isActive := true }

/-- A pending prescription asking for 3 units of `mShort` (the spec's
insufficient-stock scenario). -/
def rxPending : Prescription :=
  { id := 21
    prescriptionNumber := "RX-21"
    items := [{ medicineId := 3, medicineName := "Amoxicillin", quantity := 3 }]
    status := .pending
    validatedBy := none
    validatedAt := none
    dispensedBy := none
    dispensedAt := none
    rejectionReason := none
    notes := none }

/-- State for the validation scenario. -/
def sValidate : DispState :=
  { medicines := [mShort], prescriptions := [rxPending], transactions := [] }

/-- A well-stocked medicine (10 units). -/
def mA : Medicine :=
  { id := 4
    name := "MedA"
    quantity := 10
    pricePerUnit := 2
    reorderThreshold := 1
    expiryDate := 2000000000
    isActive := true }

/-- A second well-stocked medicine (8 units). -/
def mB : Medicine :=
  { mA with id := 5, name := "MedB", quantity := 8, pricePerUnit := 3 }

/-- A medicine with a single unit left. -/
def mC : Medicine :=
  { mA with id := 6, name := "MedC", quantity := 1 }

/-- A validated prescription for 5 of `mA` and 3 of `mB`. -/
def rxValidated : Prescription :=
  { id := 31
    prescriptionNumber := "RX-31"
    items := [{ medicineId := 4, medicineName := "MedA", quantity := 5 },
              { medicineId := 5, medicineName := "MedB", quantity := 3 }]
    status := .validated
    validatedBy := some 2
    validatedAt := some 50
    dispensedBy := none
    dispensedAt := none
    rejectionReason := none
    notes := none }

/-- State for the successful dispense scenario. -/
def sDispense : DispState :=
  { medicines := [mA, mB], prescriptions := [rxValidated], transactions := [] }

/-- A validated prescription whose second item overdraws `mC`. -/
def rxPartial : Prescription :=
  { rxValidated with
    id := 32
    prescriptionNumber := "RX-32"
    items := [{ medicineId := 4, medicineName := "MedA", quantity := 5 },
              { medicineId := 6, medicineName := "MedC", quantity := 3 }] }

/-- State for the mid-dispense failure scenario. -/
def sPartial : DispState :=
  { medicines := [mA, mC], prescriptions := [rxPartial], transactions := [] }

/-- The transaction the first item of `rxPartial` creates when user 9
dispenses at time 99. -/
def txnA : Transaction :=
  { medicineId := 4
    medicineName := "MedA"
    ttype := .dispense
    quantity := 5
    previousStock := 10
    newStock := 5
    unitPrice := 2
    totalAmount := 10
    performedBy := 9
    prescriptionId := some 32
    notes := "Dispensed via prescription RX-32"
    createdAt := 99 }

/-- The state after the first item of `rxPartial` has been applied. -/
def sPartialMid : DispState :=
  { medicines := [{ mA with quantity := 5 }, mC]
    prescriptions := [rxPartial]
    transactions := [txnA] }

/-- A sale transaction of 4 units of medicine 1 at time 50. -/
def tSale : Transaction :=
  { medicineId := 1
    medicineName := "Paracetamol"
    ttype := .sale
    quantity := 4
    previousStock := 9
    newStock := 5
    unitPrice := 2
    totalAmount := 8
    performedBy := 2
    prescriptionId := none
    notes := ""
    createdAt := 50 }

/-! ## Shared list and string lemmas -/

/-- `find?` returns the head of the filtered list. -/
theorem find?_eq_head_filter {α : Type} (p : α → Bool) (l : List α) :
    l.find? p = (l.filter p).head? := by
  induction l with
  | nil => rfl
  | cons a l ih =>
    cases h : p a with
    | true => rw [List.find?_cons_of_pos _ h, List.filter_cons_of_pos h, List.head?_cons]
    | false =>
      have h2 : ¬ p a = true := by simp [h]
      rw [List.find?_cons_of_neg _ h2, List.filter_cons_of_neg h2, ih]

/-- A `find?` over a mapped list whose map does not change the predicate's
verdict is the mapped `find?`. -/
theorem find?_map_invariant {α : Type} (p : α → Bool) (f : α → α) (l : List α)
    (h : ∀ a, p (f a) = p a) :
    (l.map f).find? p = (l.find? p).map f := by
  rw [List.find?_map]
  have : p ∘ f = p := funext h
  rw [this]

/-- A nonempty string stays nonempty after appending on the right. -/
theorem append_ne_empty_left (a b : String) (ha : a ≠ "") : a ++ b ≠ "" := by
  intro h
  apply ha
  have hlen := congrArg String.length h
  rw [String.length_append, show ("" : String).length = 0 from rfl] at hlen
  have ha0 : a.length = 0 := by omega
  cases a with
  | mk data =>
    cases data with
    | nil => rfl
    | cons c cs => simp [String.length] at ha0

/-- `Array.prototype.join` of a list starting with a nonempty string is
nonempty. -/
theorem joinSep_ne_empty (sep a : String) (l : List String) (ha : a ≠ "") :
    joinSep sep (a :: l) ≠ "" := by
  cases l with
  | nil => simpa [joinSep] using ha
  | cons b rest =>
    show a ++ sep ++ joinSep sep (b :: rest) ≠ ""
    exact append_ne_empty_left _ _ (append_ne_empty_left _ _ ha)

/-! ## C8 — medicine virtual flags -/

/-- The source's `Math.ceil` translation agrees with the mathematical
ceiling of the exact ratio, for the fixed millisecond-per-day divisor. -/
theorem ceilDiv_msPerDay_eq_ceil (a : Int) :
    ceilDiv a msPerDay = ⌈(a : ℚ) / (86400000 : ℚ)⌉ := by
  show -((-a) / (1000 * 60 * 60 * 24 : Int)) = _
  rw [show ⌈(a:ℚ)/(86400000:ℚ)⌉ = -⌊-((a:ℚ)/(86400000:ℚ))⌋ by rw [Int.floor_neg]; ring]
  rw [show -((a:ℚ)/(86400000:ℚ)) = ((-a : ℤ) : ℚ) / ((86400000:ℕ) : ℚ) by push_cast; ring]
  rw [Rat.floor_intCast_div_natCast]
  norm_num

/-- C8: for every medicine, `isLowStock` holds iff the quantity is at most
the reorder threshold, `isExpired` holds iff the expiry date is strictly in
the past, and `isExpiringSoon` holds iff the ceiling-rounded number of days
until expiry `daysUntilExpiry` lies in `(0, 30]`. -/
theorem medicine_virtual_flags (now : Int) (m : Medicine) :
    (isLowStock m = true ↔ m.quantity ≤ m.reorderThreshold) ∧
    (isExpired now m = true ↔ m.expiryDate < now) ∧
    (isExpiringSoon now m = true ↔
      0 < daysUntilExpiry now m ∧ daysUntilExpiry now m ≤ 30) ∧
    daysUntilExpiry now m = ⌈((m.expiryDate - now : Int) : ℚ) / (86400000 : ℚ)⌉ := by
  refine ⟨?_, ?_, ?_, ?_⟩
  · unfold isLowStock
    exact decide_eq_true_iff
  · unfold isExpired
    exact decide_eq_true_iff
  · simp [isExpiringSoon, daysUntilExpiry, Bool.and_eq_true, decide_eq_true_iff, and_comm]
  · exact ceilDiv_msPerDay_eq_ceil _

/-! ## Receiving a reorder request (C6, C10) -/

/-- Full characterisation of `markReorderRequestAsReceived` on an existing
request whose linked medicine exists: the call succeeds, the medicine's
stock grows by `receivedQuantity || requestedQuantity` (JS falsy: `none`
and `0` both fall back), and the request is rewritten to received status
with the added quantity stored back into `requestedQuantity`. -/
theorem markReceived_spec (now : Int) (rid : Nat) (q? : Option Int) (s : ReorderState)
    (req : ReorderRequest) (med : Medicine)
    (hreq : findRequest s.requests rid = some req)
    (hmed : findMedicine s.medicines req.medicineId = some med) :
    ∃ s', markReorderRequestAsReceived now rid q? s = .ok s' ∧
      (findMedicine s'.medicines req.medicineId).map (fun m => m.quantity) =
        some (med.quantity +
          (match q? with
           | some q => if q = 0 then req.requestedQuantity else q
           | none => req.requestedQuantity)) ∧
      ∃ req2, findRequest s'.requests rid = some req2 ∧
        req2.status = .received ∧ req2.receivedAt = some now ∧
        req2.requestedQuantity =
          (match q? with
           | some q => if q = 0 then req.requestedQuantity else q
           | none => req.requestedQuantity) := by
  have hqid : req.id = rid := by
    have h := hreq
    unfold findRequest at h
    have h2 := List.find?_some h
    simpa using h2
  have hmid : med.id = req.medicineId := by
    have h := hmed
    unfold findMedicine at h
    have h2 := List.find?_some h
    simpa using h2
  simp only [markReorderRequestAsReceived, hreq, hmed]
  refine ⟨_, rfl, ?_, ?_⟩
  · rw [findMedicine, find?_map_invariant _ _ _ ?hp]
    case hp =>
      intro a
      by_cases h : (a.id == req.medicineId) = true <;> simp [h]
    rw [show s.medicines.find? (fun m => m.id == req.medicineId) = some med from hmed]
    simp [hmid]
  · refine ⟨{ req with
      status := .received
      receivedAt := some now
      requestedQuantity := match q? with
        | some q => if q = 0 then req.requestedQuantity else q
        | none => req.requestedQuantity }, ?_, rfl, rfl, rfl⟩
    rw [findRequest, find?_map_invariant _ _ _ ?hp2]
    case hp2 =>
      intro a
      by_cases h : (a.id == rid) = true <;> simp [h]
    rw [show s.requests.find? (fun r => r.id == rid) = some req from hreq]
    simp [hqid]

/-- C6 counterexample: receiving request 1 (requested 50) with an explicit
`receivedQuantity` of `0` leaves the linked medicine at 60 units, not at the
claimed `10 + 0 = 10`: an explicit quantity is not always the amount added. -/
theorem c6_receive_explicit_quantity_counterexample :
    ((markReorderRequestAsReceived 99 1 (some 0) sReceive).toOption.bind
      (fun s2 => (findMedicine s2.medicines 2).map (fun m => m.quantity))) = some 60 ∧
    ¬ ((60 : Int) = 10 + 0) := by
  constructor
  · decide
  · decide

/-- C6 (amended): receiving an existing request whose linked medicine
exists increments the medicine's quantity by the explicit nonzero
`receivedQuantity` when one is given and by the originally requested
quantity when none is given, and marks the request received with a
receipt timestamp. -/
theorem c6_receive_updates_stock (now : Int) (rid : Nat) (q? : Option Int)
    (s : ReorderState) (req : ReorderRequest) (med : Medicine)
    (hreq : findRequest s.requests rid = some req)
    (hmed : findMedicine s.medicines req.medicineId = some med) :
    ∃ s2, markReorderRequestAsReceived now rid q? s = .ok s2 ∧
      (∀ q, q? = some q → q ≠ 0 →
        (findMedicine s2.medicines req.medicineId).map (fun m => m.quantity) =
          some (med.quantity + q)) ∧
      (q? = none →
        (findMedicine s2.medicines req.medicineId).map (fun m => m.quantity) =
          some (med.quantity + req.requestedQuantity)) ∧
      ∃ req2, findRequest s2.requests rid = some req2 ∧
        req2.status = .received ∧ req2.receivedAt = some now := by
  obtain ⟨s2, hrun, hqty, req2, hfind2, hst, hrecv, _⟩ :=
    markReceived_spec now rid q? s req med hreq hmed
  refine ⟨s2, hrun, ?_, ?_, req2, hfind2, hst, hrecv⟩
  · intro q hq hne
    subst hq
    simpa [hne] using hqty
  · intro hq
    subst hq
    simpa using hqty

/-- C6 witness: receiving request 1 of `sReceive` with an explicit
quantity of 7 adds exactly 7 units. -/
theorem c6_receive_updates_stock_witness :
    findRequest sReceive.requests 1 = some rOrdered ∧
    findMedicine sReceive.medicines rOrdered.medicineId = some mStock10 ∧
    (∃ s2, markReorderRequestAsReceived 99 1 (some 7) sReceive = .ok s2 ∧
      (∀ q, (some 7 : Option Int) = some q → q ≠ 0 →
        (findMedicine s2.medicines rOrdered.medicineId).map (fun m => m.quantity) =
          some (mStock10.quantity + q)) ∧
      ((some 7 : Option Int) = none →
        (findMedicine s2.medicines rOrdered.medicineId).map (fun m => m.quantity) =
          some (mStock10.quantity + rOrdered.requestedQuantity)) ∧
      ∃ req2, findRequest s2.requests 1 = some req2 ∧
        req2.status = .received ∧ req2.receivedAt = some 99) :=
  ⟨by decide, by decide,
    c6_receive_updates_stock 99 1 (some 7) sReceive rOrdered mStock10
      (by decide) (by decide)⟩

/-- C10: an explicit `receivedQuantity` of `0` is falsy in JS, so the code
adds the full originally requested quantity, and the request's stored
`requestedQuantity` is overwritten with the quantity actually added
(the explicit quantity itself when it is nonzero). -/
theorem c10_receive_zero_falsy (now : Int) (rid : Nat) (q : Int)
    (s : ReorderState) (req : ReorderRequest) (med : Medicine)
    (hreq : findRequest s.requests rid = some req)
    (hmed : findMedicine s.medicines req.medicineId = some med) :
    ∃ s2, markReorderRequestAsReceived now rid (some q) s = .ok s2 ∧
      (q = 0 →
        (findMedicine s2.medicines req.medicineId).map (fun m => m.quantity) =
          some (med.quantity + req.requestedQuantity)) ∧
      ∃ req2, findRequest s2.requests rid = some req2 ∧
        req2.requestedQuantity = (if q = 0 then req.requestedQuantity else q) ∧
        req2.status = .received := by
  obtain ⟨s2, hrun, hqty, req2, hfind2, hst, _, hover⟩ :=
    markReceived_spec now rid (some q) s req med hreq hmed
  refine ⟨s2, hrun, ?_, req2, hfind2, ?_, hst⟩
  · intro hq
    subst hq
    simpa using hqty
  · simpa using hover

/-- C10 witness: receiving request 1 of `sReceive` with an explicit
quantity of 0 adds the full 50 requested units. -/
theorem c10_receive_zero_falsy_witness :
    findRequest sReceive.requests 1 = some rOrdered ∧
    findMedicine sReceive.medicines rOrdered.medicineId = some mStock10 ∧
    (∃ s2, markReorderRequestAsReceived 99 1 (some 0) sReceive = .ok s2 ∧
      ((0 : Int) = 0 →
        (findMedicine s2.medicines rOrdered.medicineId).map (fun m => m.quantity) =
          some (mStock10.quantity + rOrdered.requestedQuantity)) ∧
      ∃ req2, findRequest s2.requests 1 = some req2 ∧
        req2.requestedQuantity = (if (0 : Int) = 0 then rOrdered.requestedQuantity else 0) ∧
        req2.status = .received) :=
  ⟨by decide, by decide,
    c10_receive_zero_falsy 99 1 0 sReceive rOrdered mStock10 (by decide) (by decide)⟩

/-! ## Error propagation in the reorder workflow (C7) -/

/-- C7 counterexample: a database error during the sweep is not propagated
to the caller — the catch block of `checkAndCreateReorderRequests` only
logs, so the call resolves normally instead of rethrowing. -/
theorem c7_sweep_swallows_counterexample :
    ¬ (checkAndCreateReorderRequestsE (Except.error "database failure") sEmptyReorder
        = Except.error "database failure") := by
  intro h
  simp [checkAndCreateReorderRequestsE] at h

/-- C7 (amended): in the reorder workflow, approve/order/receive log and
rethrow database errors and throw the generic not-found `Error` on a
missing request, while the sweep logs database errors and swallows them,
resolving normally with the state untouched. -/
theorem c7_reorder_error_propagation :
    (∀ (e : String) (s : ReorderState),
      checkAndCreateReorderRequestsE (.error e) s = .ok s) ∧
    (∀ e : String, approveReorderRequestE (.error e) = .error e) ∧
    (∀ e : String, markReorderRequestAsOrderedE (.error e) = .error e) ∧
    (∀ e : String, markReorderRequestAsReceivedE (.error e) = .error e) ∧
    (approveReorderRequestE (.ok none) = .error "Reorder request not found") ∧
    (markReorderRequestAsOrderedE (.ok none) = .error "Reorder request not found") ∧
    (markReorderRequestAsReceivedE (.ok none) = .error "Reorder request not found") ∧
    (∀ (now : Int) (rid uid : Nat) (s : ReorderState),
      findRequest s.requests rid = none →
      approveReorderRequest now rid uid s = .error "Reorder request not found") ∧
    (∀ (now : Int) (rid : Nat) (s : ReorderState),
      findRequest s.requests rid = none →
      markReorderRequestAsOrdered now rid s = .error "Reorder request not found") ∧
    (∀ (now : Int) (rid : Nat) (q? : Option Int) (s : ReorderState),
      findRequest s.requests rid = none →
      markReorderRequestAsReceived now rid q? s = .error "Reorder request not found") := by
  refine ⟨fun e s => rfl, fun e => rfl, fun e => rfl, fun e => rfl, rfl, rfl, rfl, ?_, ?_, ?_⟩
  · intro now rid uid s h
    unfold approveReorderRequest
    rw [h]
  · intro now rid s h
    unfold markReorderRequestAsOrdered
    rw [h]
  · intro now rid q? s h
    unfold markReorderRequestAsReceived
    rw [h]

/-- C7 witness: on the empty state, approve/order/receive of the missing
request 9 each surface the generic not-found error. -/
theorem c7_reorder_error_propagation_witness :
    findRequest sEmptyReorder.requests 9 = none ∧
    approveReorderRequest 5 9 2 sEmptyReorder = .error "Reorder request not found" ∧
    markReorderRequestAsOrdered 5 9 sEmptyReorder = .error "Reorder request not found" ∧
    markReorderRequestAsReceived 5 9 none sEmptyReorder = .error "Reorder request not found" :=
  ⟨by decide,
    c7_reorder_error_propagation.2.2.2.2.2.2.2.1 5 9 2 sEmptyReorder (by decide),
    c7_reorder_error_propagation.2.2.2.2.2.2.2.2.1 5 9 sEmptyReorder (by decide),
    c7_reorder_error_propagation.2.2.2.2.2.2.2.2.2 5 9 none sEmptyReorder (by decide)⟩

/-! ## Validation (C2) -/

/-- An item produces no validation error exactly when it fails none of the
claim's conditions. -/
theorem itemError_none_iff (now : Int) (meds : List Medicine) (item : PrescriptionItem) :
    itemValidationError now meds item = none ↔ ¬ itemFails now meds item := by
  unfold itemValidationError itemFails
  cases h : findMedicine meds item.medicineId with
  | none => simp
  | some medicine =>
    by_cases ha : medicine.isActive <;>
      by_cases hq : medicine.quantity < item.quantity <;>
        by_cases he : medicine.expiryDate < now <;>
          simp [ha, hq, he]

/-- Every message the validation loop pushes is nonempty. -/
theorem itemError_ne_empty (now : Int) (meds : List Medicine) (item : PrescriptionItem)
    (e : String) (h : itemValidationError now meds item = some e) : e ≠ "" := by
  cases hf : findMedicine meds item.medicineId with
  | none =>
    simp only [itemValidationError, hf] at h
    have he : "Medicine " ++ item.medicineName ++ " not found" = e := Option.some.inj h
    rw [← he]
    exact append_ne_empty_left _ _ (append_ne_empty_left _ _ (by decide))
  | some medicine =>
    simp only [itemValidationError, hf] at h
    split_ifs at h with h1 h2 h3
    · have he : "Medicine " ++ item.medicineName ++ " is not available" = e :=
        Option.some.inj h
      rw [← he]
      exact append_ne_empty_left _ _ (append_ne_empty_left _ _ (by decide))
    · have he : "Insufficient stock for " ++ item.medicineName ++ ". Available: "
          ++ toString medicine.quantity ++ ", Required: " ++ toString item.quantity = e :=
        Option.some.inj h
      rw [← he]
      exact append_ne_empty_left _ _ (append_ne_empty_left _ _ (append_ne_empty_left _ _
        (append_ne_empty_left _ _ (append_ne_empty_left _ _ (by decide)))))
    · have he : "Medicine " ++ item.medicineName ++ " has expired" = e := Option.some.inj h
      rw [← he]
      exact append_ne_empty_left _ _ (append_ne_empty_left _ _ (by decide))

/-- The accumulated error array is empty exactly when every item passes. -/
theorem validationErrors_eq_nil_iff (now : Int) (meds : List Medicine)
    (items : List PrescriptionItem) :
    validationErrors now meds items = [] ↔ ∀ item ∈ items, ¬ itemFails now meds item := by
  unfold validationErrors
  rw [List.filterMap_eq_nil_iff]
  constructor
  · intro h item hi
    exact (itemError_none_iff now meds item).mp (h item hi)
  · intro h item hi
    exact (itemError_none_iff now meds item).mpr (h item hi)

/-- C2: validating a pending prescription never mutates any medicine; if
some item fails a check the prescription ends rejected with a nonempty
joined reason and validator identity and time stamped; if every item
passes it ends validated with validator identity and time stamped. -/
theorem c2_validate_prescription (user : Nat) (now : Int) (reqNotes : Option String)
    (pid : Nat) (s : DispState) (p : Prescription)
    (hp : findPrescription s.prescriptions pid = some p)
    (hpend : p.status = .pending) :
    (validatePrescription user now reqNotes pid s).state.medicines = s.medicines ∧
    ((∃ item ∈ p.items, itemFails now s.medicines item) →
      (validatePrescription user now reqNotes pid s).success = false ∧
      ∃ p2, findPrescription
          (validatePrescription user now reqNotes pid s).state.prescriptions pid = some p2 ∧
        p2.status = .rejected ∧
        (∃ reason, p2.rejectionReason = some reason ∧ reason ≠ "") ∧
        p2.validatedBy = some user ∧ p2.validatedAt = some now) ∧
    ((∀ item ∈ p.items, ¬ itemFails now s.medicines item) →
      (validatePrescription user now reqNotes pid s).success = true ∧
      ∃ p2, findPrescription
          (validatePrescription user now reqNotes pid s).state.prescriptions pid = some p2 ∧
        p2.status = .validated ∧ p2.validatedBy = some user ∧ p2.validatedAt = some now) := by
  have hpid : (p.id == pid) = true := by
    have h := hp
    unfold findPrescription at h
    have h2 := List.find?_some h
    simpa using h2
  have hnotne : ¬ (p.status ≠ PrescriptionStatus.pending) := by simp [hpend]
  have hpres2 : ∀ (f : Prescription → Prescription), (∀ q, (f q).id = q.id) →
      findPrescription
        (s.prescriptions.map (fun q => if q.id == pid then f q else q)) pid = some (f p) := by
    intro f hfid
    unfold findPrescription
    rw [find?_map_invariant _ _ _ (fun a => by
      by_cases h : (a.id == pid) = true <;> simp [h, hfid a])]
    rw [show s.prescriptions.find? (fun q => q.id == pid) = some p from hp]
    simp [show p.id = pid by simpa using hpid]
  simp only [validatePrescription, hp, if_neg hnotne]
  by_cases hne : validationErrors now s.medicines p.items = []
  · rw [if_neg (by simp [hne])]
    refine ⟨rfl, ?_, ?_⟩
    · rintro ⟨item, hi, hf⟩
      exact (((validationErrors_eq_nil_iff now s.medicines p.items).mp hne) item hi hf).elim
    · intro _
      refine ⟨rfl, ?_⟩
      exact ⟨_, hpres2 _ (fun q => rfl), rfl, rfl, rfl⟩
  · rw [if_pos hne]
    refine ⟨rfl, ?_, ?_⟩
    · intro _
      refine ⟨rfl, ?_⟩
      refine ⟨_, hpres2 _ (fun q => rfl), rfl,
        ⟨joinSep "; " (validationErrors now s.medicines p.items), rfl, ?_⟩, rfl, rfl⟩
      obtain ⟨e, es, hcons⟩ := List.exists_cons_of_ne_nil hne
      rw [hcons]
      have hmem : e ∈ validationErrors now s.medicines p.items := by
        rw [hcons]
        exact List.mem_cons_self e es
      unfold validationErrors at hmem
      obtain ⟨item, _, hsome⟩ := List.mem_filterMap.mp hmem
      exact joinSep_ne_empty _ _ _ (itemError_ne_empty now s.medicines item e hsome)
    · intro hall
      exact (hne ((validationErrors_eq_nil_iff now s.medicines p.items).mpr hall)).elim

/-- C2 witness: validating the pending prescription for 3 units against a
2-unit stock rejects it with a nonempty reason and mutates no medicine. -/
theorem c2_validate_prescription_witness :
    findPrescription sValidate.prescriptions 21 = some rxPending ∧
    rxPending.status = .pending ∧
    ((validatePrescription 2 100 none 21 sValidate).state.medicines = sValidate.medicines ∧
    ((∃ item ∈ rxPending.items, itemFails 100 sValidate.medicines item) →
      (validatePrescription 2 100 none 21 sValidate).success = false ∧
      ∃ p2, findPrescription
          (validatePrescription 2 100 none 21 sValidate).state.prescriptions 21 = some p2 ∧
        p2.status = .rejected ∧
        (∃ reason, p2.rejectionReason = some reason ∧ reason ≠ "") ∧
        p2.validatedBy = some 2 ∧ p2.validatedAt = some 100) ∧
    ((∀ item ∈ rxPending.items, ¬ itemFails 100 sValidate.medicines item) →
      (validatePrescription 2 100 none 21 sValidate).success = true ∧
      ∃ p2, findPrescription
          (validatePrescription 2 100 none 21 sValidate).state.prescriptions 21 = some p2 ∧
        p2.status = .validated ∧ p2.validatedBy = some 2 ∧ p2.validatedAt = some 100)) :=
  ⟨by decide, by decide,
    c2_validate_prescription 2 100 none 21 sValidate rxPending (by decide) (by decide)⟩

/-! ## Dispensing (C1, C3) -/

/-- Splitting the per-medicine prescribed total at a cons. -/
theorem totalPrescribed_cons (item : PrescriptionItem) (rest : List PrescriptionItem)
    (mid : Nat) :
    totalPrescribed (item :: rest) mid =
      (if item.medicineId == mid then item.quantity else 0) + totalPrescribed rest mid := by
  unfold totalPrescribed
  by_cases h : (item.medicineId == mid) = true <;> simp [List.filter_cons, h]

/-- The prescribed total is nonnegative when every item quantity is
positive. -/
theorem totalPrescribed_nonneg (items : List PrescriptionItem) (mid : Nat)
    (hpos : ∀ it ∈ items, 0 < it.quantity) :
    0 ≤ totalPrescribed items mid := by
  unfold totalPrescribed
  apply List.sum_nonneg
  intro x hx
  obtain ⟨it, hit, rfl⟩ := List.mem_map.mp hx
  have := hpos it (List.mem_of_mem_filter hit)
  omega

/-- `findById` after `findByIdAndUpdate` of a quantity: the lookup result
is mapped through the rewrite. -/
theorem findMedicine_setQuantity (meds : List Medicine) (mid0 mid : Nat) (q : Int) :
    findMedicine (setMedicineQuantity meds mid0 q) mid =
      (findMedicine meds mid).map
        (fun m => if m.id == mid0 then { m with quantity := q } else m) := by
  unfold findMedicine setMedicineQuantity
  exact find?_map_invariant _ _ _ (fun a => by
    by_cases h : (a.id == mid0) = true <;> simp [h])

/-- Success of the dispense loop: when every referenced medicine exists and
holds at least the total prescribed quantity, the loop succeeds, decrements
every referenced medicine by its prescribed total, leaves other medicines
and all prescriptions untouched, and appends one dispense transaction per
item (recording consistent previous/new stock and the item quantity). -/
theorem dispenseItems_ok (user : Nat) (now : Int) (p : Prescription)
    (items : List PrescriptionItem) (s : DispState)
    (hpos : ∀ it ∈ items, 0 < it.quantity)
    (hex : ∀ it ∈ items, ∃ m, findMedicine s.medicines it.medicineId = some m)
    (hsuff : ∀ it ∈ items, ∀ m, findMedicine s.medicines it.medicineId = some m →
      totalPrescribed items it.medicineId ≤ m.quantity) :
    ∃ s2 txns, dispenseItems user now p items s = .ok (s2, txns) ∧
      (∀ mid m, findMedicine s.medicines mid = some m →
        findMedicine s2.medicines mid =
          some { m with quantity := m.quantity - totalPrescribed items mid }) ∧
      s2.transactions = s.transactions ++ txns ∧
      s2.prescriptions = s.prescriptions ∧
      txns.length = items.length ∧
      txns.map (fun t => t.quantity) = items.map (fun it => it.quantity) ∧
      (∀ t ∈ txns, t.ttype = .dispense ∧ t.newStock = t.previousStock - t.quantity ∧
        t.prescriptionId = some p.id ∧ t.performedBy = user ∧ t.createdAt = now) := by
  revert hpos hex hsuff
  induction items generalizing s with
  | nil =>
    intro hpos hex hsuff
    refine ⟨s, [], rfl, ?_, by simp, rfl, rfl, rfl, by simp⟩
    intro mid m hm
    have hm' : ({ m with quantity := m.quantity - totalPrescribed [] mid }) = m := by
      show ({ m with quantity := m.quantity - 0 }) = m
      cases m
      simp
    rw [hm']
    exact hm
  | cons item rest ih =>
    intro hpos hex hsuff
    obtain ⟨m0, hm0⟩ := hex item (List.mem_cons_self item rest)
    have hmid0 : m0.id = item.medicineId := by
      have h := hm0
      unfold findMedicine at h
      have h2 := List.find?_some h
      simpa using h2
    have hrestpos : ∀ it ∈ rest, 0 < it.quantity :=
      fun it hit => hpos it (List.mem_cons_of_mem item hit)
    have htp0 : 0 ≤ totalPrescribed rest item.medicineId :=
      totalPrescribed_nonneg rest item.medicineId hrestpos
    have htot : item.quantity + totalPrescribed rest item.medicineId ≤ m0.quantity := by
      have h := hsuff item (List.mem_cons_self item rest) m0 hm0
      rwa [totalPrescribed_cons, if_pos (by simp)] at h
    have hq : ¬ (m0.quantity < item.quantity) := by omega
    have hex2 : ∀ it ∈ rest, ∃ m,
        findMedicine (setMedicineQuantity s.medicines item.medicineId
          (m0.quantity - item.quantity)) it.medicineId = some m := by
      intro it hit
      obtain ⟨m, hm⟩ := hex it (List.mem_cons_of_mem item hit)
      rw [findMedicine_setQuantity, hm]
      exact ⟨_, rfl⟩
    have hsuff2 : ∀ it ∈ rest, ∀ m,
        findMedicine (setMedicineQuantity s.medicines item.medicineId
          (m0.quantity - item.quantity)) it.medicineId = some m →
        totalPrescribed rest it.medicineId ≤ m.quantity := by
      intro it hit m hm
      obtain ⟨morig, hmorig⟩ := hex it (List.mem_cons_of_mem item hit)
      rw [findMedicine_setQuantity, hmorig] at hm
      have hmorigid : morig.id = it.medicineId := by
        have h := hmorig
        unfold findMedicine at h
        have h2 := List.find?_some h
        simpa using h2
      have hold := hsuff it (List.mem_cons_of_mem item hit) morig hmorig
      have hfm : (if (morig.id == item.medicineId) = true then
          { morig with quantity := m0.quantity - item.quantity } else morig) = m :=
        Option.some.inj hm
      by_cases hcase : it.medicineId = item.medicineId
      · have hmeq : morig = m0 := by
          rw [hcase] at hmorig
          exact Option.some.inj (hmorig.symm.trans hm0)
        have hmval : m = { m0 with quantity := m0.quantity - item.quantity } := by
          rw [← hfm, hmeq]
          simp [hmid0]
        rw [totalPrescribed_cons, hcase, if_pos (by simp), hmeq] at hold
        rw [hcase, hmval]
        show totalPrescribed rest item.medicineId ≤ m0.quantity - item.quantity
        omega
      · have hmval : m = morig := by
          rw [← hfm]
          simp [hmorigid, hcase]
        rw [totalPrescribed_cons] at hold
        rw [show (item.medicineId == it.medicineId) = false by
          simp
          omega] at hold
        simp at hold
        rw [hmval]
        exact hold
    obtain ⟨s3, txns, hrun, hmeds3, htx3, hpres3, hlen, hmap, hprops⟩ :=
      ih ⟨setMedicineQuantity s.medicines item.medicineId (m0.quantity - item.quantity),
          s.prescriptions,
          s.transactions ++ [dispenseTxn user now p item m0]⟩ hrestpos hex2 hsuff2
    refine ⟨s3, dispenseTxn user now p item m0 :: txns, ?_, ?_, ?_, ?_, ?_, ?_, ?_⟩
    · show dispenseItems user now p (item :: rest) s = _
      simp only [dispenseItems, hm0, if_neg hq, hrun]
    · intro mid m hm
      have hmids : m.id = mid := by
        have h := hm
        unfold findMedicine at h
        have h2 := List.find?_some h
        simpa using h2
      have hstep : findMedicine (setMedicineQuantity s.medicines item.medicineId
          (m0.quantity - item.quantity)) mid =
          some (if (m.id == item.medicineId) = true
            then { m with quantity := m0.quantity - item.quantity } else m) := by
        rw [findMedicine_setQuantity, hm]
        rfl
      by_cases hcase : mid = item.medicineId
      · have hmeq : m = m0 := by
          rw [hcase] at hm
          exact Option.some.inj (hm.symm.trans hm0)
        rw [show (m.id == item.medicineId) = true by simp [hmids, hcase]] at hstep
        have h3 := hmeds3 mid _ hstep
        rw [h3, totalPrescribed_cons, hcase, if_pos (by simp)]
        show some ({ m with
          quantity := m0.quantity - item.quantity - totalPrescribed rest item.medicineId }) = _
        rw [hmeq]
        simp only [Option.some.injEq]
        have hflat : ∀ q1 q2 : Int,
            ({ m0 with quantity := q1 } : Medicine) = { m0 with quantity := q2 } ↔ q1 = q2 := by
          intro q1 q2
          constructor
          · intro h
            have := congrArg Medicine.quantity h
            simpa using this
          · intro h
            rw [h]
        rw [hflat, if_pos (show (item.medicineId == item.medicineId) = true from by simp)]
        omega
      · rw [show (m.id == item.medicineId) = false by
          simp [hmids]
          omega] at hstep
        have h3 := hmeds3 mid _ hstep
        rw [h3, totalPrescribed_cons]
        rw [show (item.medicineId == mid) = false by
          simp
          omega]
        simp
    · rw [htx3]
      show _ = s.transactions ++ _ :: txns
      simp
    · exact hpres3
    · simp [hlen]
    · simp [hmap, dispenseTxn]
    · intro t ht
      rcases List.mem_cons.mp ht with h | h
      · subst h
        exact ⟨rfl, rfl, rfl, rfl, rfl⟩
      · exact hprops t h

/-- C1: dispensing a prescription that is not validated is rejected with a
message naming the required precondition and the state — in particular
every medicine's stock — untouched; dispensing a validated prescription
whose items (with positive quantities) all reference existing medicines
with at least the prescribed total in stock succeeds, decrements every
referenced medicine by exactly its prescribed total, appends one
dispense-type transaction per item recording previous/new stock, and marks
the prescription dispensed with dispenser identity and timestamp. -/
theorem c1_dispense_prescription (user : Nat) (now : Int) (pid : Nat) (s : DispState)
    (p : Prescription)
    (hp : findPrescription s.prescriptions pid = some p) :
    (p.status ≠ .validated →
      dispensePrescription user now pid s =
        ⟨false, "Prescription must be validated before dispensing. Current status: "
          ++ p.status.str, s⟩) ∧
    (p.status = .validated →
      (∀ it ∈ p.items, 0 < it.quantity) →
      (∀ it ∈ p.items, ∃ m, findMedicine s.medicines it.medicineId = some m) →
      (∀ it ∈ p.items, ∀ m, findMedicine s.medicines it.medicineId = some m →
        totalPrescribed p.items it.medicineId ≤ m.quantity) →
      (dispensePrescription user now pid s).success = true ∧
      (∀ mid m, findMedicine s.medicines mid = some m →
        findMedicine (dispensePrescription user now pid s).state.medicines mid =
          some { m with quantity := m.quantity - totalPrescribed p.items mid }) ∧
      (∃ txns, (dispensePrescription user now pid s).state.transactions =
          s.transactions ++ txns ∧
        txns.length = p.items.length ∧
        txns.map (fun t => t.quantity) = p.items.map (fun it => it.quantity) ∧
        (∀ t ∈ txns, t.ttype = .dispense ∧ t.newStock = t.previousStock - t.quantity ∧
          t.prescriptionId = some p.id ∧ t.performedBy = user)) ∧
      findPrescription (dispensePrescription user now pid s).state.prescriptions pid =
        some { p with
          status := .dispensed
          dispensedBy := some user
          dispensedAt := some now }) := by
  have hpid : (p.id == pid) = true := by
    have h := hp
    unfold findPrescription at h
    have h2 := List.find?_some h
    simpa using h2
  constructor
  · intro hnv
    simp only [dispensePrescription, hp, if_pos hnv]
  · intro hv hpos hex hsuff
    obtain ⟨s2, txns, hrun, hmeds, htx, hpres, hlen, hmap, hprops⟩ :=
      dispenseItems_ok user now p p.items s hpos hex hsuff
    have hnn : ¬ (p.status ≠ PrescriptionStatus.validated) := by simp [hv]
    simp only [dispensePrescription, hp, if_neg hnn, hrun]
    refine ⟨trivial, ?_, ?_, ?_⟩
    · intro mid m hm
      exact hmeds mid m hm
    · exact ⟨txns, htx, hlen, hmap, fun t ht =>
        ⟨(hprops t ht).1, (hprops t ht).2.1, (hprops t ht).2.2.1, (hprops t ht).2.2.2.1⟩⟩
    · show findPrescription (s2.prescriptions.map _) pid = _
      rw [hpres]
      unfold findPrescription
      rw [find?_map_invariant _ _ _ (fun a => by
        by_cases h : (a.id == pid) = true <;> simp [h])]
      rw [show s.prescriptions.find? (fun q => q.id == pid) = some p from hp]
      simp [show p.id = pid from by simpa using hpid]

/-- C1 witness: dispensing the validated two-item prescription against
ample stock succeeds with both medicines decremented. -/
theorem c1_dispense_prescription_witness :
    findPrescription sDispense.prescriptions 31 = some rxValidated ∧
    ((rxValidated.status ≠ .validated →
      dispensePrescription 9 99 31 sDispense =
        ⟨false, "Prescription must be validated before dispensing. Current status: "
          ++ rxValidated.status.str, sDispense⟩) ∧
    (rxValidated.status = .validated →
      (∀ it ∈ rxValidated.items, 0 < it.quantity) →
      (∀ it ∈ rxValidated.items, ∃ m, findMedicine sDispense.medicines it.medicineId = some m) →
      (∀ it ∈ rxValidated.items, ∀ m, findMedicine sDispense.medicines it.medicineId = some m →
        totalPrescribed rxValidated.items it.medicineId ≤ m.quantity) →
      (dispensePrescription 9 99 31 sDispense).success = true ∧
      (∀ mid m, findMedicine sDispense.medicines mid = some m →
        findMedicine (dispensePrescription 9 99 31 sDispense).state.medicines mid =
          some { m with quantity := m.quantity - totalPrescribed rxValidated.items mid }) ∧
      (∃ txns, (dispensePrescription 9 99 31 sDispense).state.transactions =
          sDispense.transactions ++ txns ∧
        txns.length = rxValidated.items.length ∧
        txns.map (fun t => t.quantity) = rxValidated.items.map (fun it => it.quantity) ∧
        (∀ t ∈ txns, t.ttype = .dispense ∧ t.newStock = t.previousStock - t.quantity ∧
          t.prescriptionId = some rxValidated.id ∧ t.performedBy = 9)) ∧
      findPrescription (dispensePrescription 9 99 31 sDispense).state.prescriptions 31 =
        some { rxValidated with
          status := .dispensed
          dispensedBy := some 9
          dispensedAt := some 99 })) :=
  ⟨by decide, c1_dispense_prescription 9 99 31 sDispense rxValidated (by decide)⟩

/-- Structural facts of a successful loop prefix: transactions are the old
ones plus one per item, and prescriptions are untouched. -/
theorem dispenseItems_ok_state (user : Nat) (now : Int) (p : Prescription)
    (items : List PrescriptionItem) (s s2 : DispState) (txns : List Transaction)
    (h : dispenseItems user now p items s = .ok (s2, txns)) :
    s2.transactions = s.transactions ++ txns ∧ txns.length = items.length ∧
    s2.prescriptions = s.prescriptions := by
  induction items generalizing s txns with
  | nil =>
    have h2 : s = s2 ∧ [] = txns := by
      simpa [dispenseItems] using h
    obtain ⟨rfl, rfl⟩ := h2
    simp
  | cons item rest ih =>
    simp only [dispenseItems] at h
    cases hfa : findMedicine s.medicines item.medicineId with
    | none =>
      simp only [hfa] at h
      exact absurd h (by simp)
    | some ma =>
      simp only [hfa] at h
      by_cases hlt : ma.quantity < item.quantity
      · rw [if_pos hlt] at h
        exact absurd h (by simp)
      · rw [if_neg hlt] at h
        cases hrec : dispenseItems user now p rest
            { s with
              medicines := setMedicineQuantity s.medicines item.medicineId
                (ma.quantity - item.quantity)
              transactions := s.transactions ++ [dispenseTxn user now p item ma] } with
        | error e =>
          simp only [hrec] at h
          exact absurd h (by simp)
        | ok pr =>
          obtain ⟨s3, t3⟩ := pr
          simp only [hrec] at h
          have h2 : s3 = s2 ∧ dispenseTxn user now p item ma :: t3 = txns := by
            simpa using h
          obtain ⟨rfl, rfl⟩ := h2
          obtain ⟨ha, hb, hc⟩ := ih _ _ hrec
          refine ⟨?_, by simp [hb], by simpa using hc⟩
          rw [ha]
          simp

/-- When a loop prefix succeeds and the next item fails the stock
re-check, the whole loop throws the insufficiency error carrying the
mid-loop state — the prefix writes are not rolled back. -/
theorem dispenseItems_error_after (user : Nat) (now : Int) (p : Prescription)
    (pre : List PrescriptionItem) (bad : PrescriptionItem) (rest : List PrescriptionItem)
    (s smid : DispState) (txns : List Transaction) (med : Medicine)
    (hok : dispenseItems user now p pre s = .ok (smid, txns))
    (hmed : findMedicine smid.medicines bad.medicineId = some med)
    (hins : med.quantity < bad.quantity) :
    dispenseItems user now p (pre ++ bad :: rest) s =
      .error ("Insufficient stock for " ++ bad.medicineName ++ ". Available: "
        ++ toString med.quantity ++ ", Required: " ++ toString bad.quantity, smid) := by
  induction pre generalizing s txns with
  | nil =>
    have h2 : s = smid ∧ [] = txns := by
      simpa [dispenseItems] using hok
    obtain ⟨rfl, rfl⟩ := h2
    simp only [List.nil_append, dispenseItems, hmed, if_pos hins]
  | cons a pre ih =>
    simp only [dispenseItems] at hok
    simp only [List.cons_append, dispenseItems]
    cases hfa : findMedicine s.medicines a.medicineId with
    | none =>
      simp only [hfa] at hok
      exact absurd hok (by simp)
    | some ma =>
      simp only [hfa] at hok ⊢
      by_cases hlt : ma.quantity < a.quantity
      · rw [if_pos hlt] at hok
        exact absurd hok (by simp)
      · rw [if_neg hlt] at hok ⊢
        cases hrec : dispenseItems user now p pre
            { s with
              medicines := setMedicineQuantity s.medicines a.medicineId
                (ma.quantity - a.quantity)
              transactions := s.transactions ++ [dispenseTxn user now p a ma] } with
        | error e =>
          simp only [hrec] at hok
          exact absurd hok (by simp)
        | ok pr =>
          obtain ⟨s3, t3⟩ := pr
          simp only [hrec] at hok
          have h2 : s3 = smid ∧ dispenseTxn user now p a ma :: t3 = txns := by
            simpa using hok
          obtain ⟨rfl, rfl⟩ := h2
          simp only [List.append_eq]
          rw [ih _ _ hrec]

/-- C3: when a validated prescription's items split as `pre ++ bad :: rest`
with the prefix dispensing fine and `bad` failing the stock re-check, the
call fails with the insufficiency message, the final state is exactly the
mid-loop state (the prefix stock decrements and its one-per-item dispense
transactions remain applied, with no rollback), and the prescription is
left untouched — still validated, not dispensed. -/
theorem c3_dispense_partial_failure (user : Nat) (now : Int) (pid : Nat)
    (s smid : DispState) (p : Prescription) (pre : List PrescriptionItem)
    (bad : PrescriptionItem) (rest : List PrescriptionItem)
    (txns : List Transaction) (med : Medicine)
    (hp : findPrescription s.prescriptions pid = some p)
    (hv : p.status = .validated)
    (hitems : p.items = pre ++ bad :: rest)
    (hok : dispenseItems user now p pre s = .ok (smid, txns))
    (hmed : findMedicine smid.medicines bad.medicineId = some med)
    (hins : med.quantity < bad.quantity) :
    dispensePrescription user now pid s =
      ⟨false, "Insufficient stock for " ++ bad.medicineName ++ ". Available: "
        ++ toString med.quantity ++ ", Required: " ++ toString bad.quantity, smid⟩ ∧
    smid.transactions = s.transactions ++ txns ∧
    txns.length = pre.length ∧
    smid.prescriptions = s.prescriptions ∧
    findPrescription smid.prescriptions pid = some p ∧
    p.status = .validated := by
  have hnn : ¬ (p.status ≠ PrescriptionStatus.validated) := by simp [hv]
  obtain ⟨ht, hl, hpr⟩ := dispenseItems_ok_state user now p pre s smid txns hok
  have herr := dispenseItems_error_after user now p pre bad rest s smid txns med hok hmed hins
  refine ⟨?_, ht, hl, hpr, ?_, hv⟩
  · simp only [dispensePrescription, hp, if_neg hnn, hitems, herr]
  · rw [hpr]
    exact hp

/-- C3 witness: dispensing a validated prescription whose second item
overdraws the stock leaves the first item's decrement and transaction in
place and the prescription still validated. -/
theorem c3_dispense_partial_failure_witness :
    findPrescription sPartial.prescriptions 32 = some rxPartial ∧
    dispenseItems 9 99 rxPartial
      [{ medicineId := 4, medicineName := "MedA", quantity := 5 }] sPartial =
      .ok (sPartialMid, [txnA]) ∧
    (dispensePrescription 9 99 32 sPartial =
      ⟨false, "Insufficient stock for " ++ "MedC" ++ ". Available: "
        ++ toString (1 : Int) ++ ", Required: " ++ toString (3 : Int), sPartialMid⟩ ∧
    sPartialMid.transactions = sPartial.transactions ++ [txnA] ∧
    [txnA].length = [({ medicineId := 4, medicineName := "MedA", quantity := 5 }
      : PrescriptionItem)].length ∧
    sPartialMid.prescriptions = sPartial.prescriptions ∧
    findPrescription sPartialMid.prescriptions 32 = some rxPartial ∧
    rxPartial.status = .validated) :=
  ⟨by decide, by rfl,
    c3_dispense_partial_failure 9 99 32 sPartial sPartialMid rxPartial
      [{ medicineId := 4, medicineName := "MedA", quantity := 5 }]
      { medicineId := 6, medicineName := "MedC", quantity := 3 } []
      [txnA] mC (by decide) (by decide) (by decide) (by rfl) (by decide) (by decide)⟩

/-! ## Demand trends (C9) -/

/-- C9: `averageDailyDemand` is the summed sale/dispense quantity of the
medicine inside the window divided by `days`, the 30-day projection is
`averageDailyDemand × 30`, and `daysUntilStockout` is
`⌊currentStock / averageDailyDemand⌋` for positive demand and `0` for zero
demand — a total function, never a division error or infinity. -/
theorem c9_demand_trends (now : Int) (days : Int) (mid : Nat)
    (txns : List Transaction) (meds : List Medicine)
    (hdays : 0 < days)
    (hm : ∀ m ∈ meds, 0 ≤ m.quantity) :
    (getDemandTrends now days mid txns meds).totalDemand =
      ((txns.filter (demandRelevant now days mid)).map (fun t => t.quantity)).sum ∧
    (getDemandTrends now days mid txns meds).averageDailyDemand =
      ((getDemandTrends now days mid txns meds).totalDemand : ℚ) / (days : ℚ) ∧
    (getDemandTrends now days mid txns meds).predictedDemand30 =
      (getDemandTrends now days mid txns meds).averageDailyDemand * 30 ∧
    ((getDemandTrends now days mid txns meds).averageDailyDemand = 0 →
      (getDemandTrends now days mid txns meds).daysUntilStockout = 0) ∧
    (0 < (getDemandTrends now days mid txns meds).averageDailyDemand →
      (getDemandTrends now days mid txns meds).daysUntilStockout =
        ⌊((getDemandTrends now days mid txns meds).currentStock : ℚ) /
          (getDemandTrends now days mid txns meds).averageDailyDemand⌋) := by
  have hcs : 0 ≤ (getDemandTrends now days mid txns meds).currentStock := by
    simp only [getDemandTrends]
    cases hf : findMedicine meds mid with
    | none => simp
    | some m =>
      have hmem : m ∈ meds := by
        have h := hf
        unfold findMedicine at h
        exact List.mem_of_find?_eq_some h
      simpa using hm m hmem
  refine ⟨rfl, rfl, rfl, ?_, ?_⟩
  · intro havg
    simp only [getDemandTrends] at havg ⊢
    rw [if_neg]
    intro hand
    rw [havg] at hand
    exact absurd hand.2 (by simp)
  · intro havg
    simp only [getDemandTrends] at havg hcs ⊢
    rcases lt_or_eq_of_le hcs with hpos | hzero
    · rw [if_pos ⟨hpos, havg⟩]
    · rw [if_neg (by
        intro hand
        rw [← hzero] at hand
        exact absurd hand.1 (by simp))]
      rw [← hzero]
      norm_num

/-- C9 witness: the average over an empty window and the single-sale window
both satisfy the characterisation. -/
theorem c9_demand_trends_witness :
    (0 : Int) < 10 ∧
    ((getDemandTrends 100 10 1 [tSale] [mLow]).totalDemand =
      (([tSale].filter (demandRelevant 100 10 1)).map (fun t => t.quantity)).sum ∧
    (getDemandTrends 100 10 1 [tSale] [mLow]).averageDailyDemand =
      ((getDemandTrends 100 10 1 [tSale] [mLow]).totalDemand : ℚ) / (10 : ℚ) ∧
    (getDemandTrends 100 10 1 [tSale] [mLow]).predictedDemand30 =
      (getDemandTrends 100 10 1 [tSale] [mLow]).averageDailyDemand * 30 ∧
    ((getDemandTrends 100 10 1 [tSale] [mLow]).averageDailyDemand = 0 →
      (getDemandTrends 100 10 1 [tSale] [mLow]).daysUntilStockout = 0) ∧
    (0 < (getDemandTrends 100 10 1 [tSale] [mLow]).averageDailyDemand →
      (getDemandTrends 100 10 1 [tSale] [mLow]).daysUntilStockout =
        ⌊((getDemandTrends 100 10 1 [tSale] [mLow]).currentStock : ℚ) /
          (getDemandTrends 100 10 1 [tSale] [mLow]).averageDailyDemand⌋)) :=
  ⟨by decide, c9_demand_trends 100 10 1 [tSale] [mLow] (by decide) (by decide)⟩

/-! ## Reorder sweep (C4, C5) -/

/-- The sweep step never touches the medicines collection. -/
theorem sweepMedicine_medicines (s : ReorderState) (m : Medicine) :
    (sweepMedicine s m).medicines = s.medicines := by
  unfold sweepMedicine
  split
  · split
    · split <;> rfl
    · rfl
  · rfl

/-- The whole sweep never touches the medicines collection. -/
theorem sweep_fold_medicines (ms : List Medicine) (s : ReorderState) :
    (ms.foldl sweepMedicine s).medicines = s.medicines := by
  induction ms generalizing s with
  | nil => rfl
  | cons m ms ih => rw [List.foldl_cons, ih, sweepMedicine_medicines]

/-- The sweep step preserves state well-formedness. -/
theorem sweepMedicine_WF (s : ReorderState) (m : Medicine) (h : ReorderWF s) :
    ReorderWF (sweepMedicine s m) := by
  obtain ⟨hmed, hreq, hbound⟩ := h
  unfold sweepMedicine
  split
  · cases hfind : findOpenRequest s.requests m.id with
    | some req =>
      simp only []
      split
      · refine ⟨by simpa [sweepMedicine_medicines] using hmed, ?_, ?_⟩
        · have hmapeq : (s.requests.map (fun r =>
              if r.id == req.id then { r with currentStock := m.quantity } else r)).map
              (fun r => r.id) = s.requests.map (fun r => r.id) := by
            rw [List.map_map]
            apply List.map_congr_left
            intro a _
            simp only [Function.comp_apply]
            split <;> rfl
          rw [hmapeq]
          exact hreq
        · intro r hr
          obtain ⟨a, ha, rfl⟩ := List.mem_map.mp hr
          split <;> exact hbound a ha
      · exact ⟨hmed, hreq, hbound⟩
    | none =>
      simp only []
      refine ⟨hmed, ?_, ?_⟩
      · rw [List.map_append, List.nodup_append]
        refine ⟨hreq, by simp, ?_⟩
        intro x hx
        obtain ⟨a, ha, rfl⟩ := List.mem_map.mp hx
        have := hbound a ha
        simp [newReorderRequest]
        omega
      · intro r hr
        show r.id < s.nextId + 1
        rcases List.mem_append.mp hr with h | h
        · have := hbound r h
          omega
        · have : r = newReorderRequest s.nextId m := by simpa using h
          rw [this]
          simp [newReorderRequest]
  · exact ⟨hmed, hreq, hbound⟩

/-- The whole sweep preserves state well-formedness. -/
theorem sweep_fold_WF (ms : List Medicine) (s : ReorderState) (h : ReorderWF s) :
    ReorderWF (ms.foldl sweepMedicine s) := by
  induction ms generalizing s with
  | nil => exact h
  | cons m ms ih => exact ih _ (sweepMedicine_WF s m h)

/-- What a successful open-request lookup guarantees. -/
theorem findOpenRequest_some (reqs : List ReorderRequest) (mid : Nat) (r : ReorderRequest)
    (h : findOpenRequest reqs mid = some r) :
    r ∈ reqs ∧ r.medicineId = mid ∧ r.status.isOpen = true := by
  unfold findOpenRequest at h
  have h2 := List.find?_some h
  simp only [Bool.and_eq_true, beq_iff_eq] at h2
  exact ⟨List.mem_of_find?_eq_some h, h2.1, h2.2⟩

/-- If a medicine's open request already snapshots its stock, the sweep
step is a no-op on the state. -/
theorem sweepMedicine_id_of_good (s : ReorderState) (m : Medicine)
    (hgood : m.quantity ≤ m.reorderThreshold →
      ∃ r, findOpenRequest s.requests m.id = some r ∧ r.currentStock = m.quantity) :
    sweepMedicine s m = s := by
  unfold sweepMedicine
  split
  case isTrue hlow =>
    obtain ⟨r, hr, hcs⟩ := hgood hlow
    simp only [hr]
    rw [if_neg (by simp [hcs])]
  case isFalse => rfl

/-- After its own sweep step, a low-stock medicine's first open request
snapshots the current stock. -/
theorem sweepMedicine_good_self (s : ReorderState) (m : Medicine) :
    m.quantity ≤ m.reorderThreshold →
      ∃ r, findOpenRequest (sweepMedicine s m).requests m.id = some r ∧
        r.currentStock = m.quantity := by
  intro hlow
  unfold sweepMedicine
  rw [if_pos hlow]
  cases hfind : findOpenRequest s.requests m.id with
  | none =>
    simp only []
    refine ⟨newReorderRequest s.nextId m, ?_, rfl⟩
    unfold findOpenRequest at hfind ⊢
    rw [List.find?_append, hfind]
    simp [newReorderRequest, ReorderStatus.isOpen]
  | some req =>
    simp only []
    by_cases hne : req.currentStock ≠ m.quantity
    · rw [if_pos hne]
      refine ⟨{ req with currentStock := m.quantity }, ?_, rfl⟩
      unfold findOpenRequest at hfind ⊢
      rw [find?_map_invariant _ _ _ (fun a => by
        by_cases h : (a.id == req.id) = true <;> simp [h])]
      rw [hfind]
      simp
    · rw [if_neg hne]
      push_neg at hne
      exact ⟨req, hfind, hne⟩

/-- A sweep step for a different medicine does not disturb another
medicine's snapshot property (request ids are unique). -/
theorem sweepMedicine_preserves_good (s : ReorderState) (m m2 : Medicine)
    (hWF : ReorderWF s) (hne : m2.id ≠ m.id)
    (hgood : m.quantity ≤ m.reorderThreshold →
      ∃ r, findOpenRequest s.requests m.id = some r ∧ r.currentStock = m.quantity) :
    m.quantity ≤ m.reorderThreshold →
      ∃ r, findOpenRequest (sweepMedicine s m2).requests m.id = some r ∧
        r.currentStock = m.quantity := by
  intro hlow
  obtain ⟨r, hr, hcs⟩ := hgood hlow
  obtain ⟨hrmem, hrmid, hropen⟩ := findOpenRequest_some s.requests m.id r hr
  unfold sweepMedicine
  split
  case isFalse => exact ⟨r, hr, hcs⟩
  case isTrue hlow2 =>
    cases hfind2 : findOpenRequest s.requests m2.id with
    | none =>
      simp only []
      refine ⟨r, ?_, hcs⟩
      unfold findOpenRequest at hr ⊢
      rw [List.find?_append, hr]
      rfl
    | some req2 =>
      obtain ⟨hr2mem, hr2mid, _⟩ := findOpenRequest_some s.requests m2.id req2 hfind2
      simp only []
      split
      · refine ⟨r, ?_, hcs⟩
        unfold findOpenRequest at hr ⊢
        rw [find?_map_invariant _ _ _ (fun a => by
          by_cases h : (a.id == req2.id) = true <;> simp [h])]
        rw [hr]
        have hrne : (r.id == req2.id) = false := by
          simp only [beq_eq_false_iff_ne, ne_eq]
          intro hid
          have := List.inj_on_of_nodup_map hWF.2.1 hrmem hr2mem hid
          rw [this] at hrmid
          rw [hrmid] at hr2mid
          exact hne hr2mid.symm
        have hrne2 : ¬ (r.id = req2.id) := by simpa using hrne
        simp [hrne2]
      · exact ⟨r, hr, hcs⟩

/-- Folding sweep steps of other medicines preserves the snapshot
property. -/
theorem sweep_fold_preserves_good (ms : List Medicine) (s : ReorderState) (m : Medicine)
    (hWF : ReorderWF s) (hne : ∀ m2 ∈ ms, m2.id ≠ m.id)
    (hgood : m.quantity ≤ m.reorderThreshold →
      ∃ r, findOpenRequest s.requests m.id = some r ∧ r.currentStock = m.quantity) :
    m.quantity ≤ m.reorderThreshold →
      ∃ r, findOpenRequest (ms.foldl sweepMedicine s).requests m.id = some r ∧
        r.currentStock = m.quantity := by
  induction ms generalizing s with
  | nil => exact hgood
  | cons m2 ms ih =>
    rw [List.foldl_cons]
    exact ih _ (sweepMedicine_WF s m2 hWF)
      (fun m3 h3 => hne m3 (List.mem_cons_of_mem m2 h3))
      (sweepMedicine_preserves_good s m m2 hWF (hne m2 (List.mem_cons_self m2 ms)) hgood)

/-- After a full sweep over medicines with distinct ids, every swept
medicine satisfies the snapshot property. -/
theorem sweep_fold_good (ms : List Medicine) (s : ReorderState)
    (hWF : ReorderWF s) (hnodup : (ms.map (fun m => m.id)).Nodup) :
    ∀ m ∈ ms, m.quantity ≤ m.reorderThreshold →
      ∃ r, findOpenRequest (ms.foldl sweepMedicine s).requests m.id = some r ∧
        r.currentStock = m.quantity := by
  induction ms generalizing s with
  | nil => intro m hm; exact absurd hm (by simp)
  | cons m0 ms ih =>
    intro m hm
    rw [List.foldl_cons]
    rcases List.mem_cons.mp hm with rfl | hm2
    · have hne : ∀ m2 ∈ ms, m2.id ≠ m.id := by
        intro m2 h2 hid
        rw [List.map_cons, List.nodup_cons] at hnodup
        exact hnodup.1 (by
          rw [← hid]
          exact List.mem_map_of_mem (fun x => x.id) h2)
      exact sweep_fold_preserves_good ms (sweepMedicine s m) m
        (sweepMedicine_WF s m hWF) hne (sweepMedicine_good_self s m)
    · exact ih (sweepMedicine s m0) (sweepMedicine_WF s m0 hWF)
        (by
          rw [List.map_cons, List.nodup_cons] at hnodup
          exact hnodup.2) m hm2

/-- Folding sweep steps over medicines that all satisfy the snapshot
property leaves the state unchanged. -/
theorem sweep_fold_id_of_good (ms : List Medicine) (s : ReorderState)
    (hgood : ∀ m ∈ ms, m.quantity ≤ m.reorderThreshold →
      ∃ r, findOpenRequest s.requests m.id = some r ∧ r.currentStock = m.quantity) :
    ms.foldl sweepMedicine s = s := by
  induction ms with
  | nil => rfl
  | cons m ms ih =>
    rw [List.foldl_cons, sweepMedicine_id_of_good s m (hgood m (List.mem_cons_self m ms))]
    exact ih (fun m2 h2 => hgood m2 (List.mem_cons_of_mem m h2))

/-- Open requests are the open-status restriction of the per-medicine
requests. -/
theorem openRequestsFor_eq (reqs : List ReorderRequest) (mid : Nat) :
    openRequestsFor reqs mid = (requestsFor reqs mid).filter (fun r => r.status.isOpen) := by
  unfold openRequestsFor requestsFor
  rw [List.filter_filter]
  apply List.filter_congr
  intro a _
  rw [Bool.and_comm]

/-- The open-request lookup misses exactly when no open request exists. -/
theorem findOpenRequest_eq_none_iff (reqs : List ReorderRequest) (mid : Nat) :
    findOpenRequest reqs mid = none ↔ openRequestsFor reqs mid = [] := by
  unfold findOpenRequest openRequestsFor
  rw [find?_eq_head_filter]
  exact List.head?_eq_none_iff

/-- The requests written by a create-branch sweep step. -/
theorem sweepMedicine_creates (s : ReorderState) (m : Medicine)
    (hlow : m.quantity ≤ m.reorderThreshold)
    (hnone : findOpenRequest s.requests m.id = none) :
    (sweepMedicine s m).requests = s.requests ++ [newReorderRequest s.nextId m] := by
  unfold sweepMedicine
  rw [if_pos hlow]
  simp only [hnone]

/-- A sweep step for a medicine that is either distinct or above threshold
leaves another medicine's request list untouched. -/
theorem sweepMedicine_requestsFor_frame (s : ReorderState) (m2 : Medicine) (mid : Nat)
    (hWF : ReorderWF s)
    (hcond : m2.id ≠ mid ∨ ¬ (m2.quantity ≤ m2.reorderThreshold)) :
    requestsFor (sweepMedicine s m2).requests mid = requestsFor s.requests mid := by
  unfold sweepMedicine
  split
  case isFalse => rfl
  case isTrue hlow =>
    have hne : m2.id ≠ mid := hcond.resolve_right (by simp [hlow])
    cases hfind : findOpenRequest s.requests m2.id with
    | none =>
      simp only []
      unfold requestsFor
      rw [List.filter_append]
      have hnew : [newReorderRequest s.nextId m2].filter (fun r => r.medicineId == mid) = [] := by
        simp [newReorderRequest, hne]
      rw [hnew, List.append_nil]
    | some req2 =>
      obtain ⟨hr2mem, hr2mid, _⟩ := findOpenRequest_some _ _ _ hfind
      simp only []
      split
      · unfold requestsFor
        rw [List.filter_map]
        have hpg : ∀ a : ReorderRequest,
            ((fun r => r.medicineId == mid) ∘ (fun r =>
              if r.id == req2.id then { r with currentStock := m2.quantity } else r)) a =
            (a.medicineId == mid) := by
          intro a
          simp only [Function.comp_apply]
          split <;> rfl
        rw [List.filter_congr (fun a _ => hpg a)]
        have hpt : ∀ a ∈ s.requests.filter (fun r => r.medicineId == mid),
            (if a.id == req2.id then { a with currentStock := m2.quantity } else a) = id a := by
          intro a ha
          have hamid : a.medicineId = mid := by
            have := List.of_mem_filter ha
            simpa using this
          have hamem : a ∈ s.requests := List.mem_of_mem_filter ha
          have : ¬ (a.id = req2.id) := by
            intro hid
            have heq := List.inj_on_of_nodup_map hWF.2.1 hamem hr2mem hid
            rw [heq, hr2mid] at hamid
            exact hne hamid
          simp [this]
        rw [List.map_congr_left hpt, List.map_id]
      · rfl

/-- Folding frame: sweeping medicines that are all distinct from `mid` or
above threshold leaves `mid`'s request list untouched. -/
theorem sweep_fold_requestsFor_frame (ms : List Medicine) (s : ReorderState) (mid : Nat)
    (hWF : ReorderWF s)
    (hcond : ∀ m2 ∈ ms, m2.id ≠ mid ∨ ¬ (m2.quantity ≤ m2.reorderThreshold)) :
    requestsFor (ms.foldl sweepMedicine s).requests mid = requestsFor s.requests mid := by
  induction ms generalizing s with
  | nil => rfl
  | cons m2 ms ih =>
    rw [List.foldl_cons]
    rw [ih _ (sweepMedicine_WF s m2 hWF) (fun m3 h3 => hcond m3 (List.mem_cons_of_mem m2 h3))]
    exact sweepMedicine_requestsFor_frame s m2 mid hWF (hcond m2 (List.mem_cons_self m2 ms))

/-- One sweep step leaves at most `max(existing, 1)` open requests per
medicine: it creates only when none is open, and updates change no status. -/
theorem sweepMedicine_openCount (s : ReorderState) (m : Medicine) (mid : Nat) :
    openCount (sweepMedicine s m) mid ≤ max (openCount s mid) 1 := by
  unfold openCount
  unfold sweepMedicine
  split
  case isFalse => exact le_max_left _ _
  case isTrue hlow =>
    cases hfind : findOpenRequest s.requests m.id with
    | some req =>
      simp only []
      split
      · unfold openRequestsFor
        rw [List.filter_map]
        have hpg : ∀ a : ReorderRequest,
            ((fun r => r.medicineId == mid && r.status.isOpen) ∘ (fun r =>
              if r.id == req.id then { r with currentStock := m.quantity } else r)) a =
            (a.medicineId == mid && a.status.isOpen) := by
          intro a
          simp only [Function.comp_apply]
          split <;> rfl
        rw [List.filter_congr (fun a _ => hpg a), List.length_map]
        exact le_max_left _ _
      · exact le_max_left _ _
    | none =>
      simp only []
      unfold openRequestsFor
      rw [List.filter_append, List.length_append]
      by_cases hmid : m.id = mid
      · have hempty : s.requests.filter (fun r => r.medicineId == mid && r.status.isOpen) = [] := by
          rw [← hmid]
          exact (findOpenRequest_eq_none_iff s.requests m.id).mp hfind
        rw [hempty]
        simp [newReorderRequest, ← hmid, ReorderStatus.isOpen]
      · have hnew : [newReorderRequest s.nextId m].filter
            (fun r => r.medicineId == mid && r.status.isOpen) = [] := by
          simp [newReorderRequest, hmid]
        rw [hnew]
        simp only [List.length_nil, Nat.add_zero]
        exact le_max_left _ _

/-- The whole sweep leaves at most `max(existing, 1)` open requests per
medicine. -/
theorem sweep_fold_openCount (ms : List Medicine) (s : ReorderState) (mid : Nat) :
    openCount (ms.foldl sweepMedicine s) mid ≤ max (openCount s mid) 1 := by
  induction ms generalizing s with
  | nil => exact le_max_left _ _
  | cons m ms ih =>
    rw [List.foldl_cons]
    refine le_trans (ih (sweepMedicine s m)) (le_trans
      (max_le_max (sweepMedicine_openCount s m mid) (le_refl 1)) (le_of_eq ?_))
    rw [max_assoc, max_self]

/-- C5 counterexample: a state already holding two open requests for
medicine 1 still holds two of them after running the sweep twice — the
sweep does not deduplicate, so "leaves at most one open request per
medicine" fails for such starting states. -/
theorem c5_two_open_requests_counterexample :
    ¬ (openCount (checkAndCreateReorderRequests
        (checkAndCreateReorderRequests sTwoOpen)) 1 ≤ 1) := by
  decide

/-- C5 (amended): for every well-formed starting state the second sweep is
a no-op — running the sweep twice equals running it once — and the two
runs together never leave more than `max(initiallyOpen, 1)` open requests
per medicine; in particular they create at most one new open request per
medicine and preserve "at most one open request per medicine" whenever it
held initially. -/
theorem c5_sweep_idempotent (s : ReorderState) (hWF : ReorderWF s) :
    checkAndCreateReorderRequests (checkAndCreateReorderRequests s) =
      checkAndCreateReorderRequests s ∧
    ∀ mid, openCount (checkAndCreateReorderRequests (checkAndCreateReorderRequests s)) mid ≤
      max (openCount s mid) 1 := by
  have hnodup : ((s.medicines.filter (fun m => m.isActive)).map (fun m => m.id)).Nodup :=
    hWF.1.sublist (List.Sublist.map _ (List.filter_sublist s.medicines))
  have hid : checkAndCreateReorderRequests (checkAndCreateReorderRequests s) =
      checkAndCreateReorderRequests s := by
    show ((checkAndCreateReorderRequests s).medicines.filter (fun m => m.isActive)).foldl
        sweepMedicine (checkAndCreateReorderRequests s) = _
    rw [show (checkAndCreateReorderRequests s).medicines = s.medicines from
      sweep_fold_medicines _ s]
    exact sweep_fold_id_of_good _ _ (sweep_fold_good _ s hWF hnodup)
  refine ⟨hid, ?_⟩
  intro mid
  rw [hid]
  exact sweep_fold_openCount _ s mid

/-- C5 witness: on the request-free low-stock state the double sweep
equals the single sweep and respects the open-request bound. -/
theorem c5_sweep_idempotent_witness :
    ReorderWF sNoOpen ∧
    (checkAndCreateReorderRequests (checkAndCreateReorderRequests sNoOpen) =
      checkAndCreateReorderRequests sNoOpen ∧
    ∀ mid, openCount (checkAndCreateReorderRequests
        (checkAndCreateReorderRequests sNoOpen)) mid ≤
      max (openCount sNoOpen mid) 1) :=
  ⟨⟨by decide, by decide, by decide⟩,
    c5_sweep_idempotent sNoOpen ⟨by decide, by decide, by decide⟩⟩

/-- C4: for every well-formed state and every stored medicine: if the
medicine is active, at or below its reorder threshold, and has no open
request, the sweep creates exactly one open request for it — pending, with
`currentStock` equal to the medicine's quantity and
`requestedQuantity = max(3 × threshold, 50)`, and not previously stored;
if the medicine is inactive or above threshold, the sweep leaves its
request list exactly as it was (no new request). -/
theorem c4_sweep_creates_request (s : ReorderState) (m : Medicine)
    (hWF : ReorderWF s) (hmem : m ∈ s.medicines) :
    (m.isActive = true → m.quantity ≤ m.reorderThreshold →
      openRequestsFor s.requests m.id = [] →
      ∃ r, openRequestsFor (checkAndCreateReorderRequests s).requests m.id = [r] ∧
        r.status = .pending ∧ r.currentStock = m.quantity ∧
        r.requestedQuantity = max (m.reorderThreshold * 3) 50 ∧ r ∉ s.requests) ∧
    ((m.isActive = false ∨ m.reorderThreshold < m.quantity) →
      requestsFor (checkAndCreateReorderRequests s).requests m.id =
        requestsFor s.requests m.id) := by
  have hnodup : ((s.medicines.filter (fun m => m.isActive)).map (fun m => m.id)).Nodup :=
    hWF.1.sublist (List.Sublist.map _ (List.filter_sublist s.medicines))
  constructor
  · intro hact hlow hnone
    have hmm : m ∈ s.medicines.filter (fun m => m.isActive) :=
      List.mem_filter.mpr ⟨hmem, hact⟩
    obtain ⟨pre, post, hsplit⟩ := List.append_of_mem hmm
    have hnodup2 : ((pre ++ m :: post).map (fun x => x.id)).Nodup := by
      rw [← hsplit]
      exact hnodup
    rw [List.map_append, List.map_cons, List.nodup_append] at hnodup2
    have hpre : ∀ m2 ∈ pre, m2.id ≠ m.id := by
      intro m2 h2 hid
      exact hnodup2.2.2 (List.mem_map_of_mem (fun x => x.id) h2)
        (by rw [hid]; exact List.mem_cons_self _ _)
    have hpost : ∀ m2 ∈ post, m2.id ≠ m.id := by
      intro m2 h2 hid
      rw [List.nodup_cons] at hnodup2
      exact hnodup2.2.1.1 (by rw [← hid]; exact List.mem_map_of_mem (fun x => x.id) h2)
    have hfold : checkAndCreateReorderRequests s =
        post.foldl sweepMedicine (sweepMedicine (pre.foldl sweepMedicine s) m) := by
      show (s.medicines.filter (fun m => m.isActive)).foldl sweepMedicine s = _
      rw [hsplit, List.foldl_append, List.foldl_cons]
    have hWF1 : ReorderWF (pre.foldl sweepMedicine s) := sweep_fold_WF pre s hWF
    have hreq1 : requestsFor (pre.foldl sweepMedicine s).requests m.id =
        requestsFor s.requests m.id :=
      sweep_fold_requestsFor_frame pre s m.id hWF (fun m2 h2 => Or.inl (hpre m2 h2))
    have hopen1 : openRequestsFor (pre.foldl sweepMedicine s).requests m.id = [] := by
      rw [openRequestsFor_eq, hreq1, ← openRequestsFor_eq]
      exact hnone
    have hfind1 : findOpenRequest (pre.foldl sweepMedicine s).requests m.id = none :=
      (findOpenRequest_eq_none_iff _ _).mpr hopen1
    have hstep : (sweepMedicine (pre.foldl sweepMedicine s) m).requests =
        (pre.foldl sweepMedicine s).requests ++
          [newReorderRequest (pre.foldl sweepMedicine s).nextId m] :=
      sweepMedicine_creates _ m hlow hfind1
    have hopen2 : openRequestsFor (sweepMedicine (pre.foldl sweepMedicine s) m).requests m.id =
        [newReorderRequest (pre.foldl sweepMedicine s).nextId m] := by
      rw [hstep]
      unfold openRequestsFor
      rw [List.filter_append]
      rw [show (pre.foldl sweepMedicine s).requests.filter
          (fun r => r.medicineId == m.id && r.status.isOpen) = [] from hopen1]
      simp [newReorderRequest, ReorderStatus.isOpen]
    have hWF2 : ReorderWF (sweepMedicine (pre.foldl sweepMedicine s) m) :=
      sweepMedicine_WF _ m hWF1
    have hfinal : requestsFor (post.foldl sweepMedicine
          (sweepMedicine (pre.foldl sweepMedicine s) m)).requests m.id =
        requestsFor (sweepMedicine (pre.foldl sweepMedicine s) m).requests m.id :=
      sweep_fold_requestsFor_frame post _ m.id hWF2 (fun m2 h2 => Or.inl (hpost m2 h2))
    refine ⟨newReorderRequest (pre.foldl sweepMedicine s).nextId m, ?_, rfl, rfl, rfl, ?_⟩
    · rw [hfold]
      rw [openRequestsFor_eq, hfinal, ← openRequestsFor_eq]
      exact hopen2
    · intro hin
      have hmemopen : newReorderRequest (pre.foldl sweepMedicine s).nextId m ∈
          openRequestsFor s.requests m.id := by
        unfold openRequestsFor
        rw [List.mem_filter]
        exact ⟨hin, by simp [newReorderRequest, ReorderStatus.isOpen]⟩
      rw [hnone] at hmemopen
      exact absurd hmemopen (by simp)
  · intro hdisj
    apply sweep_fold_requestsFor_frame _ s m.id hWF
    intro m2 h2
    by_cases hid : m2.id = m.id
    · have hm2 : m2 = m :=
        List.inj_on_of_nodup_map hWF.1 (List.mem_of_mem_filter h2) hmem hid
      rcases hdisj with hinact | hhigh
      · have : m2.isActive = true := (List.mem_filter.mp h2).2
        rw [hm2, hinact] at this
        exact absurd this (by simp)
      · exact Or.inr (by rw [hm2]; omega)
    · exact Or.inl hid

/-- C4 witness: the 5-unit, threshold-10 medicine with no requests gets
exactly one pending request with `currentStock = 5` and
`requestedQuantity = 50`. -/
theorem c4_sweep_creates_request_witness :
    ReorderWF sNoOpen ∧ mLow ∈ sNoOpen.medicines ∧
    ((mLow.isActive = true → mLow.quantity ≤ mLow.reorderThreshold →
      openRequestsFor sNoOpen.requests mLow.id = [] →
      ∃ r, openRequestsFor (checkAndCreateReorderRequests sNoOpen).requests mLow.id = [r] ∧
        r.status = .pending ∧ r.currentStock = mLow.quantity ∧
        r.requestedQuantity = max (mLow.reorderThreshold * 3) 50 ∧ r ∉ sNoOpen.requests) ∧
    ((mLow.isActive = false ∨ mLow.reorderThreshold < mLow.quantity) →
      requestsFor (checkAndCreateReorderRequests sNoOpen).requests mLow.id =
        requestsFor sNoOpen.requests mLow.id)) :=
  ⟨⟨by decide, by decide, by decide⟩, by decide,
    c4_sweep_creates_request sNoOpen mLow ⟨by decide, by decide, by decide⟩ (by decide)⟩
